import Mathlib

/-!
# Simply Design — a shallow embedding of `src/app.js`

The application is one JavaScript file driving a browser page.  The embedding
keeps the program's own names.  JavaScript values are an inductive type, the
page's mutable state (module variables and the DOM properties the program
reads or writes) is a record, and every function of the source is a Lean
function on that record.  Asynchronous functions are cut at their `await`
points: the part before the first `await` is a function, and each settlement
of an awaited promise is an event that runs the continuation.

Strings are sequences of Unicode scalar values.
-/

namespace SimplyDesign

/-! ## JavaScript values -/

/-- An exception value, by the three observations the `catch` block of
`callApi` makes of it: `error.name`, `error instanceof TypeError` and
`error.message`. -/
structure JsError where
  name : String
  isTypeError : Bool
  message : String
  deriving DecidableEq, Repr

/-- A Number value.  The program observes a number only through ToBoolean
(`if (data.code)`, `msg || ...`) and ToString (string concatenation and DOM
string attributes), so a number is carried by these two observations. -/
structure JsNum where
  text : String
  isZeroOrNaN : Bool
  deriving DecidableEq, Repr

/-- The values a parsed JSON body and its property reads can take. `obj` holds
the own properties of a plain object in insertion order, with distinct keys. -/
inductive JsVal where
  | undefined : JsVal
  | null : JsVal
  | bool (b : Bool) : JsVal
  | num (n : JsNum) : JsVal
  | str (s : String) : JsVal
  | arr (xs : List JsVal) : JsVal
  | obj (props : List (String × JsVal)) : JsVal

/-- The TypeError of reading a property of `null` or `undefined`.  The wording
of the message is the engine's; no engine words it `Failed to fetch`. -/
def nullishReadError (key : String) : JsError :=
  ⟨"TypeError", true, "Cannot read properties of null or undefined (reading " ++ key ++ ")"⟩

/-- The TypeError of OrdinaryToPrimitive when neither `toString` nor `valueOf`
yields a primitive. -/
def toPrimitiveError : JsError :=
  ⟨"TypeError", true, "Cannot convert object to primitive value"⟩

/-- Own-property lookup in a plain object. -/
def lookupProp (key : String) : List (String × JsVal) → Option JsVal
  | [] => none
  | (k, v) :: rest => if k = key then some v else lookupProp key rest

/-- The property read `v.key`, for the keys this program reads (`status`,
`msg`, `data`, `url`, `code`, `keynode`, `Assest_list`): none of them is an
inherited property of a string, number, boolean, array or plain object, so the
read is the own property of an object and `undefined` otherwise; reading a
property of `null` or `undefined` throws. -/
def getProp (v : JsVal) (key : String) : Except JsError JsVal :=
  match v with
  | .undefined => .error (nullishReadError key)
  | .null => .error (nullishReadError key)
  | .obj props => .ok ((lookupProp key props).getD .undefined)
  | _ => .ok .undefined

/-- ToBoolean. -/
def truthy : JsVal → Bool
  | .undefined => false
  | .null => false
  | .bool b => b
  | .num n => !n.isZeroOrNaN
  | .str s => s != ""
  | .arr _ => true
  | .obj _ => true

/-- One element of `Array.prototype.join`: `null` and `undefined` contribute
the empty string, any other element its ToString `r`. -/
def elemStr (x : JsVal) (r : Except JsError String) : Except JsError String :=
  match x with
  | .undefined => .ok ""
  | .null => .ok ""
  | _ => r

mutual
/-- ToString.  A plain object stringifies through `Object.prototype.toString`
unless an own `toString` property (never callable in parsed JSON) shadows it,
in which case OrdinaryToPrimitive throws; an array stringifies through
`Array.prototype.join`. -/
def toStr : JsVal → Except JsError String
  | .undefined => .ok "undefined"
  | .null => .ok "null"
  | .bool b => .ok (if b then "true" else "false")
  | .num n => .ok n.text
  | .str s => .ok s
  | .arr xs => joinElems xs
  | .obj props =>
    match lookupProp "toString" props with
    | some _ => .error toPrimitiveError
    | none => .ok "[object Object]"
/-- The body of `Array.prototype.join` with the default separator `,`. -/
def joinElems : List JsVal → Except JsError String
  | [] => .ok ""
  | x :: rest =>
    match elemStr x (toStr x) with
    | .error e => .error e
    | .ok a =>
      match joinElems rest with
      | .error e => .error e
      | .ok b => .ok (if rest.isEmpty then a else a ++ "," ++ b)
end

/-! ## Strings -/

/-- WhiteSpace and LineTerminator code points of ECMAScript, the characters
`String.prototype.trim` strips. -/
def isJsWhiteSpace (c : Char) : Bool :=
  let n := c.toNat
  n = 0x09 || n = 0x0A || n = 0x0B || n = 0x0C || n = 0x0D || n = 0x20 ||
  n = 0xA0 || n = 0x1680 || (0x2000 ≤ n && n ≤ 0x200A) || n = 0x2028 ||
  n = 0x2029 || n = 0x202F || n = 0x205F || n = 0x3000 || n = 0xFEFF

/-- `String.prototype.trim`. -/
def jsTrim (s : String) : String :=
  ⟨((s.data.dropWhile isJsWhiteSpace).reverse.dropWhile isJsWhiteSpace).reverse⟩

/-- `String.prototype.includes` for a one-character needle. -/
def includesChar (s : String) (c : Char) : Bool :=
  s.data.contains c

/-- `String.prototype.charAt`: the one-character string at the index, or the
empty string when the index is out of range. -/
def charAt (s : String) (i : Nat) : String :=
  match s.data.get? i with
  | some c => String.singleton c
  | none => ""

/-! ## Deployment flow: `validateDomain` -/

/-- Source `validateDomain(domain)` on a string argument; `none` is `null`. -/
def validateDomain (domain : String) : Option String :=
  if domain = "" || jsTrim domain = "" then
    some "Please enter a domain name."
  else if includesChar domain ' ' then
    some "Domain cannot contain spaces."
  else
    none

/-! ## Utility: `escapeHtml` -/

/-- The replacement of one character by the "escaping a string" step of the
HTML fragment serialisation algorithm, outside attribute mode. -/
def escapeChar (c : Char) : List Char :=
  if c = '&' then "&amp;".data
  else if c = Char.ofNat 0xA0 then "&nbsp;".data
  else if c = '<' then "&lt;".data
  else if c = '>' then "&gt;".data
  else [c]

/-- Source `escapeHtml(text)` for a string `text`: `div.textContent = text`
makes the string the only text child of a fresh `div` (no child when the string
is empty), and `div.innerHTML` serialises that child, escaping it. -/
def escapeHtml (text : String) : String :=
  ⟨text.data.flatMap escapeChar⟩

/-- Conversion of a value assigned to a nullable DOM string attribute such as
`textContent`: `null` and `undefined` become the empty string, any other value
its ToString. -/
def toNullableDomString : JsVal → Except JsError String
  | .undefined => .ok ""
  | .null => .ok ""
  | v => toStr v

/-- Source `escapeHtml(text)` for an arbitrary value `text`: the `textContent`
setter converts the value to a string first, which may throw. -/
def escapeHtmlVal (text : JsVal) : Except JsError String :=
  match toNullableDomString text with
  | .error e => .error e
  | .ok s => .ok (escapeHtml s)

/-- Decoding of the character references `escapeHtml` produces; any other
ampersand is left as it is.  Used to state that escaping loses nothing. -/
def decodeEntities : List Char → List Char
  | '&' :: 'a' :: 'm' :: 'p' :: ';' :: rest => '&' :: decodeEntities rest
  | '&' :: 'n' :: 'b' :: 's' :: 'p' :: ';' :: rest => Char.ofNat 0xA0 :: decodeEntities rest
  | '&' :: 'l' :: 't' :: ';' :: rest => '<' :: decodeEntities rest
  | '&' :: 'g' :: 't' :: ';' :: rest => '>' :: decodeEntities rest
  | c :: rest => c :: decodeEntities rest
  | [] => []

/-- Every ampersand of the text starts one of the four character references
`&amp;`, `&nbsp;`, `&lt;`, `&gt;`. -/
def ampersandsEscaped : List Char → Bool
  | [] => true
  | c :: rest =>
    (c != '&' || "amp;".data.isPrefixOf rest || "nbsp;".data.isPrefixOf rest ||
      "lt;".data.isPrefixOf rest || "gt;".data.isPrefixOf rest) && ampersandsEscaped rest

/-! ## Session management: `generateSessionId` -/

/-- A finite double in `[0, 1)`, the range of `Math.random()`: the value
`mant / 2 ^ (53 + shift)`.  Every double of that range has this form: a normal
one in `[2 ^ -(s + 1), 2 ^ -s)` with `shift = s`, a subnormal one and zero with
`shift = 1021`. -/
structure UnitDouble where
  mant : Nat
  shift : Nat
  mant_lt : mant < 2 ^ 53
  shift_le : shift ≤ 1021

/-- A non-negative dyadic number `num / 2 ^ exp`. -/
structure Dyadic where
  num : Nat
  exp : Nat
  deriving DecidableEq, Repr

/-- How many low bits a natural number has beyond a 53-bit significand
(`fuel` bounds the halvings; `fuel = n` always suffices). -/
def excessBits : Nat → Nat → Nat
  | 0, _ => 0
  | fuel + 1, n => if n < 2 ^ 53 then 0 else excessBits fuel (n / 2) + 1

/-- Rounding of a natural number to 53 significant bits, to nearest, ties to the
even significand: the rounding of IEEE 754 binary64 arithmetic. -/
def round53 (n : Nat) : Nat :=
  let u := 2 ^ excessBits n n
  let q := n / u
  let r := n % u
  if 2 * r < u then q * u
  else if u < 2 * r then (q + 1) * u
  else if q % 2 = 0 then q * u
  else (q + 1) * u

/-- The double product `r * k` of a `Math.random()` value by an integer: the
exact product `mant * k / 2 ^ (53 + shift)` with its numerator rounded to 53
significant bits.  (The unit `2 ^ -(53 + shift)` is at least the smallest
subnormal, so rounding the numerator is rounding the product.) -/
def mulDouble (r : UnitDouble) (k : Nat) : Dyadic :=
  ⟨round53 (r.mant * k), 53 + r.shift⟩

/-- The rational number a dyadic number stands for. -/
def Dyadic.toRat (d : Dyadic) : ℚ :=
  (d.num : ℚ) / ((2 ^ d.exp : Nat) : ℚ)

/-- The rational number a draw stands for, `0 ≤ r < 1`. -/
def UnitDouble.toRat (r : UnitDouble) : ℚ :=
  (r.mant : ℚ) / ((2 ^ (53 + r.shift) : Nat) : ℚ)

/-- `Math.floor` on a non-negative dyadic number. -/
def mathFloor (d : Dyadic) : Nat :=
  d.num / 2 ^ d.exp

/-- The alphabet `chars` of `generateSessionId`. -/
def chars : String :=
  "ABCDEFGHIJKLMNOPQRSTUVWXYZabcdefghijklmnopqrstuvwxyz0123456789"

/-- The index `Math.floor(Math.random() * chars.length)` for the draw `r`. -/
def randomIndex (r : UnitDouble) : Nat :=
  mathFloor (mulDouble r chars.length)

/-- The index as the specification words it, read in exact arithmetic: the
floor of the exact product of the draw by the length of the alphabet.  It is
compared with `randomIndex`, the index the code computes in double arithmetic. -/
def exactIndex (r : UnitDouble) : Nat :=
  ⌊r.toRat * (chars.length : ℚ)⌋₊

/-- A draw whose exact product by 62 lies just below 47 and is rounded up onto
47 by the double multiplication. -/
def roundedUpDraw : UnitDouble :=
  ⟨6828038144723010, 0, by decide, by decide⟩

/-- Source `generateSessionId()`; `random i` is the value of the call of
`Math.random()` in iteration `i` of the loop. -/
def generateSessionId (random : Nat → UnitDouble) : String :=
  (List.range 16).foldl (fun result i => result ++ charAt chars (randomIndex (random i))) ""

/-! ## Page state -/

/-- An element appended to the message stream: its identity, its `className`
and the markup assigned to its `innerHTML`. -/
structure Elem where
  uid : Nat
  className : String
  innerHTML : String
  deriving DecidableEq, Repr

/-- The request body built by `sendMessage` and `publishDeploy`; `frameId` is
always `null`. -/
structure Payload where
  chat : String
  code_language : String
  sessionId : String
  domain_type : String
  deriving DecidableEq, Repr

/-- The `await` at which a running `callApi` is suspended. -/
inductive Phase where
  | awaitingFetch : Phase
  | awaitingJson : Phase
  deriving DecidableEq, Repr

/-- A running `callApi`: its arguments and where it is suspended. -/
structure Pending where
  payload : Payload
  isDeploy : Bool
  thinkingEl : Option Nat
  phase : Phase
  deriving DecidableEq, Repr

/-- The module variables of `app.js` and the DOM properties it reads or writes.
`welcomeMsg` is `none` when the page has no `#welcome-msg` element and holds
the element's `style.display` otherwise; the `...Active` fields say whether the
class list of the overlay contains `active`.  `nextUid` numbers the elements
created so far, `issued` lists the bodies passed to `fetch`, `pending` the
calls of `callApi` not yet completed.  Focus, scrolling, console output and the
timeout timer are not part of the state.  `popupLinkHref` is the value given to
the `href` attribute of the link, before any URL resolution by the browser. -/
structure App where
  currentSessionId : String
  selectedFramework : String
  isProcessing : Bool
  chatMessages : List Elem
  chatInputValue : String
  chatInputHeight : String
  btnSendDisabled : Bool
  welcomeMsg : Option String
  previewFrameDisplay : String
  previewFrameSrcdoc : Option String
  previewPlaceholderDisplay : String
  deployModalActive : Bool
  domainInputValue : String
  domainErrorText : String
  btnPublishDisabled : Bool
  btnPublishText : String
  popupOverlayActive : Bool
  popupBoxClass : String
  popupIconText : String
  popupTitleText : String
  popupMessageText : String
  popupLinkDisplay : String
  popupLinkHref : String
  popupLinkText : String
  nextUid : Nat
  issued : List Payload
  pending : List Pending

/-- The result of running statements that may throw: the state reached and the
exception thrown, if any.  Assignments made before a throw persist. -/
structure Exec where
  app : App
  thrown : Option JsError

/-! ## Chat bubble rendering -/

/-- Source `appendUserBubble(text)`. -/
def appendUserBubble (app : App) (text : String) : App :=
  let bubble : Elem :=
    ⟨app.nextUid, "chat-bubble user",
      "\n        <span class=\"bubble-label\">You</span>\n        " ++ escapeHtml text ++ "\n    "⟩
  { app with nextUid := app.nextUid + 1, chatMessages := app.chatMessages ++ [bubble] }

/-- Source `appendErrorBubble(msg)`. -/
def appendErrorBubble (app : App) (msg : JsVal) : Exec :=
  let uid := app.nextUid
  let app := { app with nextUid := app.nextUid + 1 }
  match escapeHtmlVal msg with
  | .error e => ⟨app, some e⟩
  | .ok escaped =>
    let bubble : Elem :=
      ⟨uid, "chat-bubble bot-error",
        "\n        <span class=\"bubble-label\">Error</span>\n        " ++ escaped ++ "\n    "⟩
    ⟨{ app with chatMessages := app.chatMessages ++ [bubble] }, none⟩

/-- Source `showThinkingLoader()`: the state and the loader created. -/
def showThinkingLoader (app : App) : App × Nat :=
  let loader : Elem :=
    ⟨app.nextUid, "thinking-loader",
      "\n        <div class=\"thinking-dots\">\n            <span></span><span></span><span></span>\n" ++
      "        </div>\n        <span class=\"thinking-text\">Thinking...</span>\n    "⟩
  ({ app with nextUid := app.nextUid + 1, chatMessages := app.chatMessages ++ [loader] }, loader.uid)

/-! ## Live preview engine -/

/-- The constant `fallbackScript` of `updatePreview`. -/
def fallbackScript : String :=
  "\n" ++
  "        <script>\n" ++
  "            document.addEventListener(\x27DOMContentLoaded\x27, function() \x7b\n" ++
  "                document.querySelectorAll(\x27img\x27).forEach(function(img) \x7b\n" ++
  "                    img.onerror = function() \x7b\n" ++
  "                        this.onerror = null;\n" ++
  "                        this.src = \x27data:image/svg+xml,\x27 + encodeURIComponent(\n" ++
  "                            \x27<svg xmlns=\"http://www.w3.org/2000/svg\" width=\"200\" height=\"150\" viewBox=\"0 0 200 150\">\x27 +\n" ++
  "                            \x27<rect fill=\"%23222\" width=\"200\" height=\"150\" rx=\"8\"/>\x27 +\n" ++
  "                            \x27<text fill=\"%23666\" x=\"100\" y=\"75\" text-anchor=\"middle\" font-family=\"sans-serif\" font-size=\"14\">Image placeholder</text>\x27 +\n" ++
  "                            \x27</svg>\x27\n" ++
  "                        );\n" ++
  "                        this.alt = \x27Image placeholder\x27;\n" ++
  "                        this.style.opacity = \x270.5\x27;\n" ++
  "                    \x7d;\n" ++
  "                \x7d);\n" ++
  "            \x7d);\n" ++
  "        </script>\n" ++
  "    "

/-- Source `updatePreview(code)`.  `code + fallbackScript` converts `code` to a
primitive, which for the values of a parsed body is its ToString. -/
def updatePreview (app : App) (code : JsVal) : Exec :=
  let app := { app with previewPlaceholderDisplay := "none", previewFrameDisplay := "block" }
  match toStr code with
  | .error e => ⟨app, some e⟩
  | .ok c =>
    let fullHtml := c ++ fallbackScript
    ⟨{ app with previewFrameSrcdoc := some fullHtml }, none⟩

/-! ## Bot bubble -/

/-- The block `if (data.code) { ... }` of `renderBotResponse`, entered with the
markup `html` built so far: the state reached with the exception thrown, if
any, and the markup after the block. -/
def renderCode (app : App) (data : JsVal) (html : String) : Exec × String :=
  match getProp data "code" with
  | .error e => (⟨app, some e⟩, html)
  | .ok code =>
    if truthy code then
      let langLabel := if app.selectedFramework ≠ "" then app.selectedFramework else "code"
      match escapeHtmlVal code with
      | .error e => (⟨app, some e⟩, html)
      | .ok escaped =>
        let html := html ++
          ("\n            <div class=\"code-block-wrapper\">\n" ++
           "                <div class=\"code-block-header\">\n" ++
           "                    <span>" ++ escapeHtml langLabel ++ "</span>\n" ++
           "                    <button class=\"btn-copy\" onclick=\"copyCode(this)\">Copy</button>\n" ++
           "                </div>\n" ++
           "                <div class=\"code-block-body\">\n" ++
           "                    <pre><code>" ++ escaped ++ "</code></pre>\n" ++
           "                </div>\n" ++
           "            </div>\n        ")
        if app.selectedFramework = "HTML/CSS" then (updatePreview app code, html)
        else (⟨app, none⟩, html)
    else (⟨app, none⟩, html)

/-- The block `if (data.keynode) { ... }` of `renderBotResponse`. -/
def renderKeynode (data : JsVal) (html : String) : Except JsError String :=
  match getProp data "keynode" with
  | .error e => .error e
  | .ok keynode =>
    if truthy keynode then
      match escapeHtmlVal keynode with
      | .error e => .error e
      | .ok escaped =>
        .ok (html ++
          ("\n            <div class=\"system-note\">\n" ++
           "                <span class=\"note-title\">💡 Key Highlights</span>\n" ++
           "                " ++ escaped ++ "\n" ++
           "            </div>\n        "))
    else .ok html

/-- The block `if (data.Assest_list) { ... }` of `renderBotResponse`. -/
def renderAssets (data : JsVal) (html : String) : Except JsError String :=
  match getProp data "Assest_list" with
  | .error e => .error e
  | .ok assets =>
    if truthy assets then
      match escapeHtmlVal assets with
      | .error e => .error e
      | .ok escaped =>
        .ok (html ++
          ("\n            <div class=\"asset-list\">\n" ++
           "                <span class=\"asset-title\">📦 Assets Required</span>\n" ++
           "                " ++ escaped ++ "\n" ++
           "            </div>\n        "))
    else .ok html

/-- Source `renderBotResponse(data)`. -/
def renderBotResponse (app : App) (data : JsVal) : Exec :=
  let uid := app.nextUid
  let app := { app with nextUid := app.nextUid + 1 }
  let html := "<span class=\"bubble-label\">Simply Design AI</span>"
  let r := renderCode app data html
  match r.1.thrown with
  | some e => ⟨r.1.app, some e⟩
  | none =>
    match renderKeynode data r.2 with
    | .error e => ⟨r.1.app, some e⟩
    | .ok html =>
      match renderAssets data html with
      | .error e => ⟨r.1.app, some e⟩
      | .ok html =>
        let bubble : Elem := ⟨uid, "chat-bubble bot", html⟩
        ⟨{ r.1.app with chatMessages := r.1.app.chatMessages ++ [bubble] }, none⟩

/-! ## Deployment modal and popups -/

/-- Source `closeDeployModal()`. -/
def closeDeployModal (app : App) : App :=
  { app with deployModalActive := false }

/-- Source `showSuccessPopup(url)`.  The `href` setter converts with ToString,
the `textContent` setter as a nullable string. -/
def showSuccessPopup (app : App) (url : JsVal) : Exec :=
  let app := { app with
    popupBoxClass := "popup-box success"
    popupIconText := "🎉"
    popupTitleText := "Deployed Successfully!"
    popupMessageText := "Your project is now live at:"
    popupLinkDisplay := "inline-block" }
  match toStr url with
  | .error e => ⟨app, some e⟩
  | .ok href =>
    let app := { app with popupLinkHref := href }
    match toNullableDomString url with
    | .error e => ⟨app, some e⟩
    | .ok text => ⟨{ app with popupLinkText := text, popupOverlayActive := true }, none⟩

/-- Source `showErrorPopup(msg)`. -/
def showErrorPopup (app : App) (msg : JsVal) : Exec :=
  let app := { app with
    popupBoxClass := "popup-box error"
    popupIconText := "❌"
    popupTitleText := "Deployment Failed" }
  match toNullableDomString msg with
  | .error e => ⟨app, some e⟩
  | .ok text =>
    ⟨{ app with popupMessageText := text, popupLinkDisplay := "none", popupOverlayActive := true }, none⟩

/-! ## API wrapper -/

/-- Source `handleError(msg, isDeploy)`. -/
def handleError (app : App) (msg : JsVal) (isDeploy : Bool) : Exec :=
  if isDeploy then
    let app := closeDeployModal app
    let errorText := if truthy msg then msg else .str "Deployment failed. Please try again."
    showErrorPopup app errorText
  else
    let finalMsg :=
      if truthy msg then msg else .str "System Error: Unable to process request. Please try again."
    appendErrorBubble app finalMsg

/-- The statement `if (thinkingEl) thinkingEl.remove();`: the loader, when one
was passed, leaves the message stream, its only possible parent. -/
def removeThinking (app : App) (thinkingEl : Option Nat) : App :=
  match thinkingEl with
  | none => app
  | some t => { app with chatMessages := app.chatMessages.filter (fun el => el.uid != t) }

/-- The comparison `v === s` with a string `s`. -/
def strictEqStr (v : JsVal) (s : String) : Bool :=
  match v with
  | .str t => t = s
  | _ => false

/-- Source `callApi(payload, isDeploy, thinkingEl)` up to `await fetch(...)`:
the request is issued and the call is suspended. -/
def callApi (app : App) (payload : Payload) (isDeploy : Bool) (thinkingEl : Option Nat) : App :=
  { app with
    issued := app.issued ++ [payload]
    pending := app.pending ++ [⟨payload, isDeploy, thinkingEl, .awaitingFetch⟩] }

/-- The statements of the `try` block of `callApi` that follow
`await response.json()`, for the parsed body `resData`. -/
def callApiTry (app : App) (isDeploy : Bool) (thinkingEl : Option Nat) (resData : JsVal) : Exec :=
  let app := removeThinking app thinkingEl
  match getProp resData "status" with
  | .error e => ⟨app, some e⟩
  | .ok status =>
    if strictEqStr status "success" then
      if isDeploy then
        let app := closeDeployModal app
        match getProp resData "data" with
        | .error e => ⟨app, some e⟩
        | .ok data =>
          match getProp data "url" with
          | .error e => ⟨app, some e⟩
          | .ok url => showSuccessPopup app url
      else
        match getProp resData "data" with
        | .error e => ⟨app, some e⟩
        | .ok data => renderBotResponse app data
    else
      match getProp resData "msg" with
      | .error e => ⟨app, some e⟩
      | .ok msg => handleError app msg isDeploy

/-- The `catch (error)` block of `callApi`. -/
def callApiCatch (app : App) (isDeploy : Bool) (thinkingEl : Option Nat) (error : JsError) : Exec :=
  let app := removeThinking app thinkingEl
  if error.name = "AbortError" then
    let timeoutMsg :=
      "Request timed out. The server is taking too long to respond — please try again."
    handleError app (.str timeoutMsg) isDeploy
  else if error.isTypeError && error.message = "Failed to fetch" then
    handleError app
      (.str "Cannot reach the server. Check your internet connection or open the app via a local server (not file://).")
      isDeploy
  else
    handleError app .null isDeploy

/-- How the awaited part of a `callApi` ends: `fetch` or `response.json()`
rejects with `error`, or the body is parsed to `resData`. -/
inductive Settlement where
  | rejected (error : JsError) : Settlement
  | parsed (resData : JsVal) : Settlement

/-- The rest of `callApi` once its awaited part has ended: the `catch` block
for a rejection; for a parsed body the rest of the `try` block, and the `catch`
block from the state reached if that throws. -/
def callApiResume (app : App) (isDeploy : Bool) (thinkingEl : Option Nat) : Settlement → Exec
  | .rejected error => callApiCatch app isDeploy thinkingEl error
  | .parsed resData =>
    let r := callApiTry app isDeploy thinkingEl resData
    match r.thrown with
    | none => r
    | some error => callApiCatch r.app isDeploy thinkingEl error

/-! ## Chat engine -/

/-- Source `sendMessage()` up to `await callApi(...)`. -/
def sendMessage (app : App) : App :=
  let text := jsTrim app.chatInputValue
  if text = "" || app.isProcessing then app
  else
    let app := { app with welcomeMsg := app.welcomeMsg.map (fun _ => "none") }
    let app := appendUserBubble app text
    let app := { app with chatInputValue := "", chatInputHeight := "auto" }
    let loader := showThinkingLoader app
    let app := loader.1
    let thinkingEl := loader.2
    let app := { app with isProcessing := true, btnSendDisabled := true }
    let payload : Payload :=
      { chat := text
        code_language := app.selectedFramework
        sessionId := app.currentSessionId
        domain_type := "null" }
    callApi app payload false (some thinkingEl)

/-- The statements of `sendMessage` after `await callApi(...)`. -/
def sendMessageTail (app : App) : App :=
  { app with isProcessing := false, btnSendDisabled := false }

/-! ## Deployment flow -/

/-- Source `publishDeploy()` up to `await callApi(...)`. -/
def publishDeploy (app : App) : App :=
  let domain := jsTrim app.domainInputValue
  let error := validateDomain domain
  if error.any (fun e => e != "") then
    { app with domainErrorText := error.getD "" }
  else
    let app := { app with btnPublishDisabled := true, btnPublishText := "Publishing..." }
    let payload : Payload :=
      { chat := "DEPLOY"
        code_language := app.selectedFramework
        sessionId := app.currentSessionId
        domain_type := domain }
    callApi app payload true none

/-- The statements of `publishDeploy` after `await callApi(...)`. -/
def publishDeployTail (app : App) : App :=
  { app with btnPublishDisabled := false, btnPublishText := "Publish" }

/-! ## Event loop -/

/-- What can happen to the page: the user edits a field or triggers a handler,
or the promise awaited by the `i`-th pending `callApi` settles. -/
inductive Event where
  | chatInput (text : String) : Event
  | sendMessage : Event
  | domainInput (text : String) : Event
  | publishDeploy : Event
  | fetchRejected (i : Nat) (error : JsError) : Event
  | fetchResolved (i : Nat) : Event
  | jsonRejected (i : Nat) (error : JsError) : Event
  | jsonResolved (i : Nat) (resData : JsVal) : Event

/-- Completion of the pending call `p` at index `i`: the rest of `callApi`
runs, then the rest of its caller, unless `callApi` rejected. -/
def complete (app : App) (i : Nat) (p : Pending) (s : Settlement) : App :=
  let r := callApiResume { app with pending := app.pending.eraseIdx i } p.isDeploy p.thinkingEl s
  match r.thrown with
  | some _ => r.app
  | none => if p.isDeploy then publishDeployTail r.app else sendMessageTail r.app

/-- One turn of the event loop.  A settlement addressed to no pending call, or
to one suspended at the other `await`, does nothing. -/
def step (app : App) : Event → App
  | .chatInput text => { app with chatInputValue := text }
  | .sendMessage => sendMessage app
  | .domainInput text => { app with domainInputValue := text }
  | .publishDeploy => publishDeploy app
  | .fetchRejected i error =>
    match app.pending.get? i with
    | some p => if p.phase = .awaitingFetch then complete app i p (.rejected error) else app
    | none => app
  | .fetchResolved i =>
    match app.pending.get? i with
    | some p =>
      if p.phase = .awaitingFetch then
        { app with pending := app.pending.set i { p with phase := .awaitingJson } }
      else app
    | none => app
  | .jsonRejected i error =>
    match app.pending.get? i with
    | some p => if p.phase = .awaitingJson then complete app i p (.rejected error) else app
    | none => app
  | .jsonResolved i resData =>
    match app.pending.get? i with
    | some p => if p.phase = .awaitingJson then complete app i p (.parsed resData) else app
    | none => app

/-- The number of outstanding requests of the chat path. -/
def chatOutstanding (app : App) : Nat :=
  app.pending.countP (fun p => !p.isDeploy)

/-- An initial state: not processing and no call pending. -/
def Initial (app : App) : Prop :=
  app.isProcessing = false ∧ app.pending = []

/-- The states the page can reach from an initial state. -/
inductive Reachable : App → Prop where
  | init (app : App) : Initial app → Reachable app
  | step (app : App) (e : Event) : Reachable app → Reachable (step app e)

/-! ## Observations used in the statements -/

/-- The `<` characters of a markup string.  In element content a tag, and so an
element, can only start at one of them. -/
def tagOpens (markup : String) : Nat :=
  markup.data.count '<'

/-- The `>` characters of a markup string. -/
def tagCloses (markup : String) : Nat :=
  markup.data.count '>'

/-- The page as loaded: the module variables as `app.js` initialises them, an
empty message stream and no call pending. -/
def initialApp : App :=
  { currentSessionId := "", selectedFramework := "HTML/CSS", isProcessing := false,
    chatMessages := [], chatInputValue := "", chatInputHeight := "", btnSendDisabled := false,
    welcomeMsg := some "", previewFrameDisplay := "none", previewFrameSrcdoc := none,
    previewPlaceholderDisplay := "", deployModalActive := false, domainInputValue := "",
    domainErrorText := "", btnPublishDisabled := false, btnPublishText := "Publish",
    popupOverlayActive := false, popupBoxClass := "popup-box", popupIconText := "",
    popupTitleText := "", popupMessageText := "", popupLinkDisplay := "", popupLinkHref := "",
    popupLinkText := "", nextUid := 0, issued := [], pending := [] }

/-- What running a part of `callApi` from the state `a` can do to the fields
the event loop depends on: the processing flag, the pending calls and the
issued requests stay as they are, element identities are only ever added, and
every element of the stream was there before or is new. -/
def RenderStep (a b : App) : Prop :=
  b.isProcessing = a.isProcessing ∧ b.pending = a.pending ∧ b.issued = a.issued ∧
  a.nextUid ≤ b.nextUid ∧ ∀ el ∈ b.chatMessages, el ∈ a.chatMessages ∨ a.nextUid ≤ el.uid

/-- The exceptions the `catch` block of `callApi` reports with no message:
neither an abort nor a `Failed to fetch` TypeError. -/
def Unclassified (error : JsError) : Prop :=
  error.name ≠ "AbortError" ∧ (error.isTypeError && error.message = "Failed to fetch") = false

/-- The preview pane: the `display` of the frame, the `display` of the
placeholder and the document loaded into the frame. -/
def preview (app : App) : String × String × Option String :=
  (app.previewFrameDisplay, app.previewPlaceholderDisplay, app.previewFrameSrcdoc)

/-- The error bubble with identity `uid` whose markup shows `text`, a text
without markup characters. -/
def errorBubble (uid : Nat) (text : String) : Elem :=
  ⟨uid, "chat-bubble bot-error",
    "\n        <span class=\"bubble-label\">Error</span>\n        " ++ text ++ "\n    "⟩

/-- The invariant of the event loop: the chat path has one outstanding request
when the page is processing and none otherwise; every pending chat call holds
the loader it was given; and every loader held by a pending call was created
earlier. -/
def Consistent (app : App) : Prop :=
  chatOutstanding app = (if app.isProcessing then 1 else 0) ∧
  (∀ p ∈ app.pending, p.isDeploy = false → ∃ t, p.thinkingEl = some t) ∧
  (∀ p ∈ app.pending, ∀ t, p.thinkingEl = some t → t < app.nextUid)

/-! # Theorems -/

/-! ## `validateDomain` -/

/-- Trimming leaves nothing exactly when every character is white space. -/
theorem jsTrim_eq_empty_iff (s : String) :
    jsTrim s = "" ↔ s.data.all isJsWhiteSpace = true := by
  unfold jsTrim
  rw [String.ext_iff]
  simp only [List.all_eq_true]
  show ((s.data.dropWhile isJsWhiteSpace).reverse.dropWhile isJsWhiteSpace).reverse = [] ↔ _
  rw [List.reverse_eq_nil_iff, List.dropWhile_eq_nil_iff]
  constructor
  · intro h
    have hd : s.data.dropWhile isJsWhiteSpace = [] := by
      cases hdw : s.data.dropWhile isJsWhiteSpace with
      | nil => rfl
      | cons a l =>
        exfalso
        have ha : isJsWhiteSpace a = true := h a (by rw [hdw]; simp)
        have := List.head_dropWhile_not isJsWhiteSpace s.data (by rw [hdw]; simp)
        simp [hdw] at this
        rw [ha] at this
        exact Bool.noConfusion this
    exact List.dropWhile_eq_nil_iff.mp hd
  · intro h
    have hd : s.data.dropWhile isJsWhiteSpace = [] := List.dropWhile_eq_nil_iff.mpr h
    rw [hd]
    simp

/-- The three cases of `validateDomain`, decided by the characters of the value. -/
theorem validateDomain_eq (value : String) :
    validateDomain value =
      if value.data.all isJsWhiteSpace = true then some "Please enter a domain name."
      else if ' ' ∈ value.data then some "Domain cannot contain spaces."
      else none := by
  unfold validateDomain includesChar
  by_cases hw : value.data.all isJsWhiteSpace = true
  · have : jsTrim value = "" := (jsTrim_eq_empty_iff value).mpr hw
    simp [this, hw]
  · have h1 : jsTrim value ≠ "" := fun h => hw ((jsTrim_eq_empty_iff value).mp h)
    have h2 : value ≠ "" := by
      intro h
      apply hw
      subst h
      rfl
    simp only [h1, h2, hw]
    simp

/-- C5, as stated, fails: the one-character string holding a tab is not
empty and contains no space character, yet `validateDomain` rejects it with the
first error instead of accepting it. -/
theorem validateDomain_tab_rejected :
    "\t" ≠ "" ∧ includesChar "\t" ' ' = false ∧
      validateDomain "\t" = some "Please enter a domain name." := by
  decide

/-- C5 (amended): for every string, `validateDomain` returns the first error
when the value is empty or white space only, otherwise the second error when it
contains a space character, otherwise `null`; so every value that is not white
space only and has no space character is accepted; and the four examples of the
specification evaluate as stated. -/
theorem validateDomain_characterised (value : String) :
    (value.data.all isJsWhiteSpace = true →
        validateDomain value = some "Please enter a domain name.") ∧
    (value.data.all isJsWhiteSpace = false → ' ' ∈ value.data →
        validateDomain value = some "Domain cannot contain spaces.") ∧
    (value.data.all isJsWhiteSpace = false → ' ' ∉ value.data →
        validateDomain value = none) ∧
    validateDomain "" = some "Please enter a domain name." ∧
    validateDomain "   " = some "Please enter a domain name." ∧
    validateDomain "my site" = some "Domain cannot contain spaces." ∧
    validateDomain "my-site" = none := by
  refine ⟨?_, ?_, ?_, by decide, by decide, by decide, by decide⟩
  · intro h
    rw [validateDomain_eq, if_pos h]
  · intro h hs
    rw [validateDomain_eq, if_neg (by simp [h]), if_pos hs]
  · intro h hs
    rw [validateDomain_eq, if_neg (by simp [h]), if_neg hs]

/-- The amended C5 at the value `a\tb`, which has white space but no space
character and is accepted. -/
theorem validateDomain_characterised_witness :
    "a\tb".data.all isJsWhiteSpace = false ∧ ' ' ∉ "a\tb".data ∧
      validateDomain "a\tb" = none :=
  ⟨by decide, by decide,
    (validateDomain_characterised "a\tb").2.2.1 (by decide) (by decide)⟩

/-! ## `generateSessionId` -/

/-- A number below `2 ^ (53 + k)` has at most `k` bits in excess. -/
theorem excessBits_le (fuel : Nat) : ∀ (k n : Nat), n < 2 ^ (53 + k) → excessBits fuel n ≤ k := by
  induction fuel with
  | zero => intro k n _; simp [excessBits]
  | succ fuel ih =>
    intro k n hn
    unfold excessBits
    split
    · exact Nat.zero_le _
    · rename_i h
      cases k with
      | zero => exact absurd hn h
      | succ k =>
        have : n / 2 < 2 ^ (53 + k) := by
          rw [Nat.div_lt_iff_lt_mul (by decide)]
          calc n < 2 ^ (53 + (k + 1)) := hn
            _ = 2 ^ (53 + k) * 2 := by rw [← Nat.add_assoc, Nat.pow_succ]
        exact Nat.succ_le_succ (ih k (n / 2) this)

/-- Rounding never passes a multiple of the rounding unit that bounds the
number from above. -/
theorem round53_le_of_dvd (n t : Nat) (hnt : n ≤ t) (hdvd : 2 ^ excessBits n n ∣ t) :
    round53 n ≤ t := by
  obtain ⟨m, hm⟩ := hdvd
  have hu : 0 < 2 ^ excessBits n n := Nat.pow_pos (by decide)
  unfold round53
  generalize 2 ^ excessBits n n = u at hm hu ⊢
  have hdm := Nat.div_add_mod n u
  have hq : n / u * u ≤ t := le_trans (Nat.div_mul_le_self n u) hnt
  have hup : 0 < n % u → (n / u + 1) * u ≤ t := by
    intro hr
    have hlt : n / u < m := by
      by_contra hge
      push_neg at hge
      have : u * m ≤ u * (n / u) := Nat.mul_le_mul_left u hge
      omega
    calc (n / u + 1) * u ≤ m * u := Nat.mul_le_mul_right u hlt
      _ = t := by rw [hm, Nat.mul_comm]
  show (if 2 * (n % u) < u then n / u * u
    else if u < 2 * (n % u) then (n / u + 1) * u
    else if n / u % 2 = 0 then n / u * u else (n / u + 1) * u) ≤ t
  split
  · exact hq
  · rename_i h1
    have hr : 0 < n % u := by omega
    split
    · exact hup hr
    · split
      · exact hq
      · exact hup hr

/-- The index computed from a draw is below the length of the alphabet, the
rounding of the product included. -/
theorem randomIndex_lt (r : UnitDouble) : randomIndex r < 62 := by
  have hlen : chars.length = 62 := by decide
  unfold randomIndex mulDouble mathFloor
  rw [hlen]
  show round53 (r.mant * 62) / 2 ^ (53 + r.shift) < 62
  have hm := r.mant_lt
  have hround : round53 (r.mant * 62) ≤ 62 * 2 ^ 53 - 64 := by
    by_cases htop : r.mant = 2 ^ 53 - 1
    · rw [htop]; decide
    · have hle : r.mant * 62 ≤ 62 * 2 ^ 53 - 64 := by
        have : r.mant ≤ 2 ^ 53 - 2 := by omega
        omega
      apply round53_le_of_dvd _ _ hle
      have he : excessBits (r.mant * 62) (r.mant * 62) ≤ 6 :=
        excessBits_le _ 6 _ (by norm_num; omega)
      have h64 : (2 : Nat) ^ excessBits (r.mant * 62) (r.mant * 62) ∣ 2 ^ 6 :=
        Nat.pow_dvd_pow 2 he
      exact Nat.dvd_trans h64 (by decide)
  have hpow : (2 : Nat) ^ 53 ≤ 2 ^ (53 + r.shift) := Nat.pow_le_pow_right (by decide) (by omega)
  rw [Nat.div_lt_iff_lt_mul (Nat.pow_pos (by decide))]
  calc round53 (r.mant * 62) ≤ 62 * 2 ^ 53 - 64 := hround
    _ < 62 * 2 ^ 53 := by norm_num
    _ ≤ 62 * 2 ^ (53 + r.shift) := Nat.mul_le_mul_left 62 hpow

/-- The characters accumulated by a loop that appends one string per item. -/
theorem foldl_append_data (g : Nat → String) (l : List Nat) (acc : String) :
    (l.foldl (fun result i => result ++ g i) acc).data =
      acc.data ++ l.flatMap (fun i => (g i).data) := by
  induction l generalizing acc with
  | nil => simp
  | cons a l ih => simp [ih, String.data_append, List.append_assoc]

/-- Within range `charAt` yields exactly the character at the index. -/
theorem charAt_data (s : String) (i : Nat) (c : Char) (h : s.data.get? i = some c) :
    (charAt s i).data = [c] := by
  unfold charAt
  rw [h]
  rfl

/-- The characters of a session id, one per draw. -/
theorem generateSessionId_data (random : Nat → UnitDouble) :
    (generateSessionId random).data =
      (List.range 16).map (fun i => chars.data.getD (randomIndex (random i)) 'A') := by
  unfold generateSessionId
  rw [foldl_append_data]
  show [] ++ _ = _
  rw [List.nil_append]
  induction (List.range 16) with
  | nil => rfl
  | cons a l ih =>
    rw [List.flatMap_cons, List.map_cons, ih]
    have hlt : randomIndex (random a) < chars.data.length := by
      have := randomIndex_lt (random a)
      have hlen : chars.data.length = 62 := by decide
      omega
    have hget : chars.data.get? (randomIndex (random a)) =
        some (chars.data.getD (randomIndex (random a)) 'A') := by
      rw [List.getD_eq_getElem?_getD, List.get?_eq_getElem?, List.getElem?_eq_getElem hlt]
      simp
    rw [charAt_data _ _ _ hget]
    rfl

/-- Rounding moves a number to one of the two multiples of the rounding unit
around it, the nearer one, and leaves a multiple where it is. -/
theorem round53_bounds (n : Nat) :
    n / 2 ^ excessBits n n * 2 ^ excessBits n n ≤ round53 n ∧
    round53 n ≤ (n / 2 ^ excessBits n n + 1) * 2 ^ excessBits n n ∧
    2 * round53 n ≤ 2 * n + 2 ^ excessBits n n ∧
    2 * n ≤ 2 * round53 n + 2 ^ excessBits n n := by
  have hu : 0 < 2 ^ excessBits n n := Nat.pow_pos (by decide)
  unfold round53
  generalize 2 ^ excessBits n n = u at hu ⊢
  have hdm := Nat.div_add_mod n u
  have hlt := Nat.mod_lt n hu
  have h1 : (n / u + 1) * u = n / u * u + u := Nat.succ_mul _ _
  have h2 : u * (n / u) = n / u * u := Nat.mul_comm _ _
  dsimp only
  rw [h1]
  generalize n / u * u = a at h1 h2 ⊢
  split
  · omega
  · split
    · omega
    · split <;> omega

/-- The rounding unit of a product `mant * 62` divides `2 ^ (53 + shift)`. -/
theorem unit_dvd (r : UnitDouble) :
    2 ^ excessBits (r.mant * 62) (r.mant * 62) ∣ 2 ^ (53 + r.shift) ∧
    2 ^ excessBits (r.mant * 62) (r.mant * 62) ≤ 64 := by
  have hm := r.mant_lt
  have he : excessBits (r.mant * 62) (r.mant * 62) ≤ 6 :=
    excessBits_le _ 6 _ (by norm_num; omega)
  refine ⟨Nat.pow_dvd_pow 2 (by omega), ?_⟩
  calc 2 ^ excessBits (r.mant * 62) (r.mant * 62) ≤ 2 ^ 6 :=
        Nat.pow_le_pow_right (by decide) he
    _ = 64 := by norm_num

/-- The rounded numerator of the product lies between the two multiples of
`2 ^ (53 + shift)` around the exact numerator: rounding moves the product
across no integer, at most onto the next one. -/
theorem round53_between (r : UnitDouble) :
    r.mant * 62 / 2 ^ (53 + r.shift) * 2 ^ (53 + r.shift) ≤ round53 (r.mant * 62) ∧
    round53 (r.mant * 62) ≤ (r.mant * 62 / 2 ^ (53 + r.shift) + 1) * 2 ^ (53 + r.shift) := by
  obtain ⟨⟨c, hc⟩, _⟩ := unit_dvd r
  obtain ⟨hlo, hhi, _, _⟩ := round53_bounds (r.mant * 62)
  have hu : 0 < 2 ^ excessBits (r.mant * 62) (r.mant * 62) := Nat.pow_pos (by decide)
  have hD : 0 < 2 ^ (53 + r.shift) := Nat.pow_pos (by decide)
  generalize 2 ^ excessBits (r.mant * 62) (r.mant * 62) = u at hc hlo hhi hu
  generalize 2 ^ (53 + r.shift) = D at hc hD ⊢
  generalize r.mant * 62 = n at hlo hhi ⊢
  subst hc
  constructor
  · have h1 : n / (u * c) * (u * c) ≤ n := Nat.div_mul_le_self n (u * c)
    have h2 : n / (u * c) * c ≤ n / u := by
      rw [Nat.le_div_iff_mul_le hu]
      calc n / (u * c) * c * u = n / (u * c) * (u * c) := by ring
        _ ≤ n := h1
    calc n / (u * c) * (u * c) = n / (u * c) * c * u := by ring
      _ ≤ n / u * u := Nat.mul_le_mul_right u h2
      _ ≤ round53 n := hlo
  · have h1 : n < (n / (u * c) + 1) * (u * c) := by
      have := Nat.lt_mul_div_succ n hD
      calc n < u * c * (n / (u * c) + 1) := this
        _ = (n / (u * c) + 1) * (u * c) := Nat.mul_comm _ _
    have h2 : n / u < (n / (u * c) + 1) * c := by
      rw [Nat.div_lt_iff_lt_mul hu]
      calc n < (n / (u * c) + 1) * (u * c) := h1
        _ = (n / (u * c) + 1) * c * u := by ring
    calc round53 n ≤ (n / u + 1) * u := hhi
      _ ≤ (n / (u * c) + 1) * c * u := Nat.mul_le_mul_right u h2
      _ = (n / (u * c) + 1) * (u * c) := by ring

/-- The exact index is the quotient of the exact numerator. -/
theorem exactIndex_eq (r : UnitDouble) :
    exactIndex r = r.mant * 62 / 2 ^ (53 + r.shift) := by
  have hlen : chars.length = 62 := by decide
  unfold exactIndex UnitDouble.toRat
  rw [hlen]
  have : (r.mant : ℚ) / ((2 ^ (53 + r.shift) : Nat) : ℚ) * ((62 : Nat) : ℚ) =
      ((r.mant * 62 : Nat) : ℚ) / ((2 ^ (53 + r.shift) : Nat) : ℚ) := by
    push_cast
    ring
  rw [this, Nat.floor_div_eq_div]

/-- The index the code computes is the quotient of the rounded numerator. -/
theorem randomIndex_eq (r : UnitDouble) :
    randomIndex r = round53 (r.mant * 62) / 2 ^ (53 + r.shift) := by
  have hlen : chars.length = 62 := by decide
  unfold randomIndex mulDouble mathFloor
  rw [hlen]

/-- The index the code computes is the exact index, or the next one when the
double product is rounded up onto that integer. -/
theorem randomIndex_exact_or_next (r : UnitDouble) :
    randomIndex r = exactIndex r ∨
      (randomIndex r = exactIndex r + 1 ∧
        (mulDouble r chars.length).toRat = (exactIndex r : ℚ) + 1) := by
  have hlen : chars.length = 62 := by decide
  obtain ⟨hlo, hhi⟩ := round53_between r
  have hD : 0 < 2 ^ (53 + r.shift) := Nat.pow_pos (by decide)
  rw [randomIndex_eq, exactIndex_eq]
  have hge : r.mant * 62 / 2 ^ (53 + r.shift) ≤ round53 (r.mant * 62) / 2 ^ (53 + r.shift) :=
    (Nat.le_div_iff_mul_le hD).mpr hlo
  by_cases htop : round53 (r.mant * 62) =
      (r.mant * 62 / 2 ^ (53 + r.shift) + 1) * 2 ^ (53 + r.shift)
  · right
    refine ⟨?_, ?_⟩
    · rw [htop, Nat.mul_div_cancel _ hD]
    · unfold mulDouble Dyadic.toRat
      rw [hlen]
      show ((round53 (r.mant * 62) : Nat) : ℚ) / ((2 ^ (53 + r.shift) : Nat) : ℚ) = _
      rw [htop]
      have hne : ((2 ^ (53 + r.shift) : Nat) : ℚ) ≠ 0 := by
        exact_mod_cast Nat.pos_iff_ne_zero.mp hD
      rw [Nat.cast_mul, mul_div_assoc, div_self hne, mul_one]
      push_cast
      rfl
  · left
    have hlt : round53 (r.mant * 62) <
        (r.mant * 62 / 2 ^ (53 + r.shift) + 1) * 2 ^ (53 + r.shift) :=
      Nat.lt_of_le_of_ne hhi htop
    have hle : round53 (r.mant * 62) / 2 ^ (53 + r.shift) <
        r.mant * 62 / 2 ^ (53 + r.shift) + 1 :=
      (Nat.div_lt_iff_lt_mul hD).mpr hlt
    omega

/-- The double product differs from the exact product by at most `2 ^ -48`. -/
theorem mulDouble_near (r : UnitDouble) :
    |(mulDouble r chars.length).toRat - r.toRat * (chars.length : ℚ)| ≤ 1 / 2 ^ 48 := by
  have hlen : chars.length = 62 := by decide
  obtain ⟨_, hu64⟩ := unit_dvd r
  obtain ⟨_, _, h1, h2⟩ := round53_bounds (r.mant * 62)
  have hpow : (2 : Nat) ^ 53 ≤ 2 ^ (53 + r.shift) :=
    Nat.pow_le_pow_right (by decide) (by omega)
  have hD : (0 : ℚ) < ((2 ^ (53 + r.shift) : Nat) : ℚ) := by
    exact_mod_cast Nat.pow_pos (by decide)
  have hD53 : ((2 : ℚ) ^ 53) ≤ ((2 ^ (53 + r.shift) : Nat) : ℚ) := by
    exact_mod_cast hpow
  have hup : 2 * (round53 (r.mant * 62) : ℚ) ≤ 2 * ((r.mant * 62 : Nat) : ℚ) + 64 := by
    have : 2 * round53 (r.mant * 62) ≤ 2 * (r.mant * 62) + 64 := by omega
    exact_mod_cast this
  have hdown : 2 * ((r.mant * 62 : Nat) : ℚ) ≤ 2 * (round53 (r.mant * 62) : ℚ) + 64 := by
    have : 2 * (r.mant * 62) ≤ 2 * round53 (r.mant * 62) + 64 := by omega
    exact_mod_cast this
  unfold mulDouble Dyadic.toRat UnitDouble.toRat
  rw [hlen]
  show |((round53 (r.mant * 62) : Nat) : ℚ) / ((2 ^ (53 + r.shift) : Nat) : ℚ) -
      (r.mant : ℚ) / ((2 ^ (53 + r.shift) : Nat) : ℚ) * ((62 : Nat) : ℚ)| ≤ 1 / 2 ^ 48
  have heq : ((round53 (r.mant * 62) : Nat) : ℚ) / ((2 ^ (53 + r.shift) : Nat) : ℚ) -
      (r.mant : ℚ) / ((2 ^ (53 + r.shift) : Nat) : ℚ) * ((62 : Nat) : ℚ) =
      ((round53 (r.mant * 62) : ℚ) - ((r.mant * 62 : Nat) : ℚ)) /
        ((2 ^ (53 + r.shift) : Nat) : ℚ) := by
    push_cast
    ring
  rw [heq, abs_div, abs_of_pos hD, div_le_iff₀ hD]
  have habs : |(round53 (r.mant * 62) : ℚ) - ((r.mant * 62 : Nat) : ℚ)| ≤ 32 := by
    rw [abs_le]
    constructor <;> linarith
  have h32 : (32 : ℚ) ≤ 1 / 2 ^ 48 * ((2 ^ (53 + r.shift) : Nat) : ℚ) := by
    have : (32 : ℚ) = 1 / 2 ^ 48 * 2 ^ 53 := by norm_num
    rw [this]
    exact mul_le_mul_of_nonneg_left hD53 (by norm_num)
  exact le_trans habs h32

/-- C10, as stated with the index `floor(r_i * 62)` of the exact product, fails:
for the draw `6828038144723010 / 2 ^ 53` the exact product is below 47 and its
floor is 46, while the double product is 47, so the code takes the alphabet
character at index 47, `v`, and not the one at index 46, `u`. -/
theorem randomIndex_exceeds_exactIndex :
    exactIndex roundedUpDraw = 46 ∧ randomIndex roundedUpDraw = 47 ∧
    (generateSessionId (fun _ => roundedUpDraw)).data.get? 0 = some 'v' ∧
    chars.data.get? (exactIndex roundedUpDraw) = some 'u' := by
  have h46 : exactIndex roundedUpDraw = 46 := by
    rw [exactIndex_eq]
    decide
  refine ⟨h46, by decide, ?_, ?_⟩
  · rw [generateSessionId_data]
    decide
  · rw [h46]
    decide

/-- C10 (amended): for every sequence of draws, each a double `r` with
`0 ≤ r < 1`, `generateSessionId` returns a string of length 16; the alphabet has
62 distinct alphanumeric characters; every character of the id belongs to it;
and for each position `i` the `i`-th character is the alphabet character at the
index `Math.floor(r_i * 62)` computed in double arithmetic, which is always a
valid index: the double product is within `2 ^ -48` of the exact product, and
the index is the floor of the exact product or, when the double product is
rounded up onto the next integer, that floor plus one. -/
theorem generateSessionId_alphabet (random : Nat → UnitDouble) :
    (generateSessionId random).length = 16 ∧
    chars.length = 62 ∧ chars.data.Nodup ∧ (∀ c ∈ chars.data, c.isAlphanum = true) ∧
    (∀ c ∈ (generateSessionId random).data, c ∈ chars.data) ∧
    ∀ i : Fin 16, randomIndex (random i) < chars.length ∧
      (generateSessionId random).data.get? i = chars.data.get? (randomIndex (random i)) ∧
      randomIndex (random i) = ⌊(mulDouble (random i) chars.length).toRat⌋₊ ∧
      |(mulDouble (random i) chars.length).toRat - (random i).toRat * (chars.length : ℚ)| ≤
        1 / 2 ^ 48 ∧
      (randomIndex (random i) = ⌊(random i).toRat * (chars.length : ℚ)⌋₊ ∨
        (randomIndex (random i) = ⌊(random i).toRat * (chars.length : ℚ)⌋₊ + 1 ∧
          (mulDouble (random i) chars.length).toRat =
            (⌊(random i).toRat * (chars.length : ℚ)⌋₊ : ℚ) + 1)) := by
  have hlen : chars.length = 62 := by decide
  have hlt : ∀ i, randomIndex (random i) < chars.data.length := by
    intro i
    have := randomIndex_lt (random i)
    have hlen : chars.data.length = 62 := by decide
    omega
  have hget : ∀ i, chars.data.get? (randomIndex (random i)) =
      some (chars.data.getD (randomIndex (random i)) 'A') := by
    intro i
    rw [List.getD_eq_getElem?_getD, List.get?_eq_getElem?, List.getElem?_eq_getElem (hlt i)]
    simp
  refine ⟨?_, hlen, by decide, by decide, ?_, ?_⟩
  · show (generateSessionId random).data.length = 16
    rw [generateSessionId_data]
    simp
  · intro c hc
    rw [generateSessionId_data] at hc
    obtain ⟨i, _, rfl⟩ := List.mem_map.mp hc
    have := hget i
    exact List.get?_mem this
  · intro i
    refine ⟨by rw [hlen]; exact randomIndex_lt _, ?_, ?_, mulDouble_near _, ?_⟩
    · rw [generateSessionId_data, hget]
      simp [List.get?_eq_getElem?, List.getElem?_map, List.getElem?_range i.isLt]
    · unfold randomIndex mathFloor Dyadic.toRat
      rw [Nat.floor_div_eq_div]
    · exact randomIndex_exact_or_next (random i)

/-! ## `escapeHtml` and the bubbles -/

/-- The five cases of `escapeChar`. -/
theorem escapeChar_cases (c : Char) :
    (c = '&' ∧ escapeChar c = "&amp;".data) ∨ (c = Char.ofNat 0xA0 ∧ escapeChar c = "&nbsp;".data) ∨
    (c = '<' ∧ escapeChar c = "&lt;".data) ∨ (c = '>' ∧ escapeChar c = "&gt;".data) ∨
    (c ≠ '&' ∧ c ≠ '<' ∧ c ≠ '>' ∧ escapeChar c = [c]) := by
  unfold escapeChar
  by_cases h1 : c = '&'
  · left; simp [h1]
  · by_cases h2 : c = Char.ofNat 0xA0
    · right; left; subst h2; exact ⟨rfl, by decide⟩
    · by_cases h3 : c = '<'
      · right; right; left; subst h3; exact ⟨rfl, by decide⟩
      · by_cases h4 : c = '>'
        · right; right; right; left; subst h4; exact ⟨rfl, by decide⟩
        · right; right; right; right; simp [h1, h2, h3, h4]

/-- Decoding undoes the escaping of one character. -/
theorem decodeEntities_escapeChar (c : Char) (rest : List Char) :
    decodeEntities (escapeChar c ++ rest) = c :: decodeEntities rest := by
  rcases escapeChar_cases c with ⟨h, e⟩ | ⟨h, e⟩ | ⟨h, e⟩ | ⟨h, e⟩ | ⟨h1, h3, h4, e⟩
  · rw [e, h]; show decodeEntities ('&' :: 'a' :: 'm' :: 'p' :: ';' :: rest) = _
    rw [decodeEntities]
  · rw [e, h]; show decodeEntities ('&' :: 'n' :: 'b' :: 's' :: 'p' :: ';' :: rest) = _
    rw [decodeEntities]
  · rw [e, h]; show decodeEntities ('&' :: 'l' :: 't' :: ';' :: rest) = _
    rw [decodeEntities]
  · rw [e, h]; show decodeEntities ('&' :: 'g' :: 't' :: ';' :: rest) = _
    rw [decodeEntities]
  · rw [e]; show decodeEntities (c :: rest) = _
    rw [decodeEntities]
    all_goals (intros; simp_all)

/-- Escaping one character keeps every ampersand the start of a reference. -/
theorem ampersandsEscaped_escapeChar (c : Char) (rest : List Char)
    (h : ampersandsEscaped rest = true) : ampersandsEscaped (escapeChar c ++ rest) = true := by
  rcases escapeChar_cases c with ⟨_, e⟩ | ⟨_, e⟩ | ⟨_, e⟩ | ⟨_, e⟩ | ⟨h1, _, _, e⟩
  · rw [e]; show ampersandsEscaped ('&' :: 'a' :: 'm' :: 'p' :: ';' :: rest) = true
    simp [ampersandsEscaped, h, List.isPrefixOf]
  · rw [e]; show ampersandsEscaped ('&' :: 'n' :: 'b' :: 's' :: 'p' :: ';' :: rest) = true
    simp [ampersandsEscaped, h, List.isPrefixOf]
  · rw [e]; show ampersandsEscaped ('&' :: 'l' :: 't' :: ';' :: rest) = true
    simp [ampersandsEscaped, h, List.isPrefixOf]
  · rw [e]; show ampersandsEscaped ('&' :: 'g' :: 't' :: ';' :: rest) = true
    simp [ampersandsEscaped, h, List.isPrefixOf]
  · rw [e]; show ampersandsEscaped (c :: rest) = true
    simp [ampersandsEscaped, h, h1]

/-- The escape of a character has no angle bracket. -/
theorem escapeChar_no_angle (c : Char) : '<' ∉ escapeChar c ∧ '>' ∉ escapeChar c := by
  rcases escapeChar_cases c with ⟨_, e⟩ | ⟨_, e⟩ | ⟨_, e⟩ | ⟨_, e⟩ | ⟨_, h3, h4, e⟩
  · rw [e]; decide
  · rw [e]; decide
  · rw [e]; decide
  · rw [e]; decide
  · rw [e]; simp [Ne.symm h3, Ne.symm h4]

/-- The escaped text has no angle bracket, each of its ampersands starts a
character reference, and decoding the references gives the text back. -/
theorem escapeHtml_safe (s : String) :
    '<' ∉ (escapeHtml s).data ∧ '>' ∉ (escapeHtml s).data ∧
    ampersandsEscaped (escapeHtml s).data = true ∧
    decodeEntities (escapeHtml s).data = s.data := by
  unfold escapeHtml
  show '<' ∉ s.data.flatMap escapeChar ∧ '>' ∉ s.data.flatMap escapeChar ∧
    ampersandsEscaped (s.data.flatMap escapeChar) = true ∧
    decodeEntities (s.data.flatMap escapeChar) = s.data
  induction s.data with
  | nil => exact ⟨by simp, by simp, rfl, rfl⟩
  | cons c l ih =>
    obtain ⟨h1, h2, h3, h4⟩ := ih
    rw [List.flatMap_cons]
    refine ⟨?_, ?_, ampersandsEscaped_escapeChar c _ h3, ?_⟩
    · rw [List.mem_append]; exact fun h => h.elim (escapeChar_no_angle c).1 h1
    · rw [List.mem_append]; exact fun h => h.elim (escapeChar_no_angle c).2 h2
    · rw [decodeEntities_escapeChar, h4]

/-- The `<` count of a concatenation. -/
theorem tagOpens_append (a b : String) : tagOpens (a ++ b) = tagOpens a + tagOpens b := by
  simp [tagOpens, String.data_append, List.count_append]

/-- The `>` count of a concatenation. -/
theorem tagCloses_append (a b : String) : tagCloses (a ++ b) = tagCloses a + tagCloses b := by
  simp [tagCloses, String.data_append, List.count_append]

/-- Escaped text opens no tag. -/
theorem tagOpens_escapeHtml (s : String) : tagOpens (escapeHtml s) = 0 :=
  List.count_eq_zero.mpr (escapeHtml_safe s).1

/-- Escaped text closes no tag. -/
theorem tagCloses_escapeHtml (s : String) : tagCloses (escapeHtml s) = 0 :=
  List.count_eq_zero.mpr (escapeHtml_safe s).2.1

/-- Whatever value is escaped, the result has no angle bracket. -/
theorem escapeHtmlVal_tags (v : JsVal) (escaped : String) (h : escapeHtmlVal v = .ok escaped) :
    tagOpens escaped = 0 ∧ tagCloses escaped = 0 := by
  unfold escapeHtmlVal at h
  split at h
  · exact Except.noConfusion h
  · injection h with h
    subst h
    exact ⟨tagOpens_escapeHtml _, tagCloses_escapeHtml _⟩

/-- `updatePreview` does not touch the message stream. -/
theorem updatePreview_chatMessages (app : App) (code : JsVal) :
    (updatePreview app code).app.chatMessages = app.chatMessages := by
  unfold updatePreview
  split <;> rfl

/-- The code block adds its fourteen tags when `data.code` is truthy and
nothing otherwise, and leaves the message stream as it is. -/
theorem renderCode_tags (app : App) (data code : JsVal) (html : String)
    (hcode : getProp data "code" = .ok code)
    (hthrown : (renderCode app data html).1.thrown = none) :
    tagOpens (renderCode app data html).2 = tagOpens html + (if truthy code then 14 else 0) ∧
    tagCloses (renderCode app data html).2 = tagCloses html + (if truthy code then 14 else 0) ∧
    (renderCode app data html).1.app.chatMessages = app.chatMessages := by
  unfold renderCode at hthrown ⊢
  rw [hcode] at hthrown ⊢
  by_cases ht : truthy code = true
  · simp only [ht, if_true] at hthrown ⊢
    cases he : escapeHtmlVal code with
    | error e => rw [he] at hthrown; exact Option.noConfusion hthrown
    | ok escaped =>
      obtain ⟨ho, hc⟩ := escapeHtmlVal_tags code escaped he
      have h1 : tagOpens "\n            <div class=\"code-block-wrapper\">\n" = 1 := by decide
      have h2 : tagOpens "                <div class=\"code-block-header\">\n" = 1 := by decide
      have h3 : tagOpens "                    <span>" = 1 := by decide
      have h4 : tagOpens "</span>\n" = 1 := by decide
      have h5 : tagOpens "                    <button class=\"btn-copy\" onclick=\"copyCode(this)\">Copy</button>\n" = 2 := by decide
      have h6 : tagOpens "                </div>\n" = 1 := by decide
      have h7 : tagOpens "                <div class=\"code-block-body\">\n" = 1 := by decide
      have h8 : tagOpens "                    <pre><code>" = 2 := by decide
      have h9 : tagOpens "</code></pre>\n" = 2 := by decide
      have h10 : tagOpens "            </div>\n        " = 1 := by decide
      have k1 : tagCloses "\n            <div class=\"code-block-wrapper\">\n" = 1 := by decide
      have k2 : tagCloses "                <div class=\"code-block-header\">\n" = 1 := by decide
      have k3 : tagCloses "                    <span>" = 1 := by decide
      have k4 : tagCloses "</span>\n" = 1 := by decide
      have k5 : tagCloses "                    <button class=\"btn-copy\" onclick=\"copyCode(this)\">Copy</button>\n" = 2 := by decide
      have k6 : tagCloses "                </div>\n" = 1 := by decide
      have k7 : tagCloses "                <div class=\"code-block-body\">\n" = 1 := by decide
      have k8 : tagCloses "                    <pre><code>" = 2 := by decide
      have k9 : tagCloses "</code></pre>\n" = 2 := by decide
      have k10 : tagCloses "            </div>\n        " = 1 := by decide
      simp only []
      split
      · simp only [tagOpens_append, tagCloses_append, tagOpens_escapeHtml, tagCloses_escapeHtml,
          ho, hc, h1, h2, h3, h4, h5, h6, h7, h8, h9, h10, k1, k2, k3, k4, k5, k6, k7, k8, k9, k10,
          updatePreview_chatMessages]
        trivial
      · simp only [tagOpens_append, tagCloses_append, tagOpens_escapeHtml, tagCloses_escapeHtml,
          ho, hc, h1, h2, h3, h4, h5, h6, h7, h8, h9, h10, k1, k2, k3, k4, k5, k6, k7, k8, k9, k10]
        trivial
  · simp [ht]

/-- The highlights note adds its four tags when `data.keynode` is truthy. -/
theorem renderKeynode_tags (data keynode : JsVal) (html out : String)
    (hkey : getProp data "keynode" = .ok keynode) (h : renderKeynode data html = .ok out) :
    tagOpens out = tagOpens html + (if truthy keynode then 4 else 0) ∧
    tagCloses out = tagCloses html + (if truthy keynode then 4 else 0) := by
  unfold renderKeynode at h
  rw [hkey] at h
  by_cases ht : truthy keynode = true
  · simp only [ht, if_true] at h ⊢
    cases he : escapeHtmlVal keynode with
    | error e => rw [he] at h; exact Except.noConfusion h
    | ok escaped =>
      obtain ⟨ho, hc⟩ := escapeHtmlVal_tags keynode escaped he
      rw [he] at h
      injection h with h
      subst h
      have h1 : tagOpens "\n            <div class=\"system-note\">\n" = 1 := by decide
      have h2 : tagOpens "                <span class=\"note-title\">💡 Key Highlights</span>\n" = 2 := by decide
      have h3 : tagOpens "                " = 0 := by decide
      have h4 : tagOpens "\n" = 0 := by decide
      have h5 : tagOpens "            </div>\n        " = 1 := by decide
      have k1 : tagCloses "\n            <div class=\"system-note\">\n" = 1 := by decide
      have k2 : tagCloses "                <span class=\"note-title\">💡 Key Highlights</span>\n" = 2 := by decide
      have k3 : tagCloses "                " = 0 := by decide
      have k4 : tagCloses "\n" = 0 := by decide
      have k5 : tagCloses "            </div>\n        " = 1 := by decide
      simp only [tagOpens_append, tagCloses_append, ho, hc, h1, h2, h3, h4, h5, k1, k2, k3, k4, k5]
      trivial
  · simp only [ht] at h ⊢
    injection h with h
    subst h
    simp

/-- The assets note adds its four tags when `data.Assest_list` is truthy. -/
theorem renderAssets_tags (data assets : JsVal) (html out : String)
    (hassets : getProp data "Assest_list" = .ok assets) (h : renderAssets data html = .ok out) :
    tagOpens out = tagOpens html + (if truthy assets then 4 else 0) ∧
    tagCloses out = tagCloses html + (if truthy assets then 4 else 0) := by
  unfold renderAssets at h
  rw [hassets] at h
  by_cases ht : truthy assets = true
  · simp only [ht, if_true] at h ⊢
    cases he : escapeHtmlVal assets with
    | error e => rw [he] at h; exact Except.noConfusion h
    | ok escaped =>
      obtain ⟨ho, hc⟩ := escapeHtmlVal_tags assets escaped he
      rw [he] at h
      injection h with h
      subst h
      have h1 : tagOpens "\n            <div class=\"asset-list\">\n" = 1 := by decide
      have h2 : tagOpens "                <span class=\"asset-title\">📦 Assets Required</span>\n" = 2 := by decide
      have h3 : tagOpens "                " = 0 := by decide
      have h4 : tagOpens "\n" = 0 := by decide
      have h5 : tagOpens "            </div>\n        " = 1 := by decide
      have k1 : tagCloses "\n            <div class=\"asset-list\">\n" = 1 := by decide
      have k2 : tagCloses "                <span class=\"asset-title\">📦 Assets Required</span>\n" = 2 := by decide
      have k3 : tagCloses "                " = 0 := by decide
      have k4 : tagCloses "\n" = 0 := by decide
      have k5 : tagCloses "            </div>\n        " = 1 := by decide
      simp only [tagOpens_append, tagCloses_append, ho, hc, h1, h2, h3, h4, h5, k1, k2, k3, k4, k5]
      trivial
  · simp only [ht] at h ⊢
    injection h with h
    subst h
    simp

/-- A bot bubble that is rendered without a throw is appended to the stream,
and its tags are those of the label and of the blocks present. -/
theorem renderBotResponse_tags (app : App) (data code keynode assets : JsVal)
    (hcode : getProp data "code" = .ok code) (hkey : getProp data "keynode" = .ok keynode)
    (hassets : getProp data "Assest_list" = .ok assets)
    (hthrown : (renderBotResponse app data).thrown = none) :
    ∃ bubble : Elem,
      (renderBotResponse app data).app.chatMessages = app.chatMessages ++ [bubble] ∧
      bubble.className = "chat-bubble bot" ∧
      tagOpens bubble.innerHTML = 2 + (if truthy code then 14 else 0) +
        (if truthy keynode then 4 else 0) + (if truthy assets then 4 else 0) ∧
      tagCloses bubble.innerHTML = 2 + (if truthy code then 14 else 0) +
        (if truthy keynode then 4 else 0) + (if truthy assets then 4 else 0) := by
  unfold renderBotResponse at hthrown ⊢
  simp only [] at hthrown ⊢
  split at hthrown
  · exact Option.noConfusion hthrown
  · rename_i hnone
    obtain ⟨ho, hc, hm⟩ := renderCode_tags _ data code _ hcode hnone
    split at hthrown
    · exact Option.noConfusion hthrown
    · rename_i html1 hk
      obtain ⟨ho1, hc1⟩ := renderKeynode_tags data keynode _ html1 hkey hk
      split at hthrown
      · exact Option.noConfusion hthrown
      · rename_i html2 ha
        obtain ⟨ho2, hc2⟩ := renderAssets_tags data assets _ html2 hassets ha
        refine ⟨⟨app.nextUid, "chat-bubble bot", html2⟩, ?_, rfl, ?_, ?_⟩
        · simp only [hm]
        · show tagOpens html2 = _
          rw [ho2, ho1, ho]
          have : tagOpens "<span class=\"bubble-label\">Simply Design AI</span>" = 2 := by decide
          rw [this]
        · show tagCloses html2 = _
          rw [hc2, hc1, hc]
          have : tagCloses "<span class=\"bubble-label\">Simply Design AI</span>" = 2 := by decide
          rw [this]

/-- C6: for every string `s`, `escapeHtml(s)` contains no `<` and no `>`, each
of its ampersands starts a character reference, and decoding the references
yields `s`; the user bubble, the error bubble and the bot bubble (language
label, code, keynode, Assest_list) put text into their markup only through
`escapeHtml`, so the tags of a bubble are exactly those of its fixed template,
whatever the text; and a user message containing `<script>` appears in the
bubble as the literal text `&lt;script&gt;`. -/
theorem escapeHtml_bubbles (s text : String) (app : App) (msg data code keynode assets : JsVal) :
    ('<' ∉ (escapeHtml s).data ∧ '>' ∉ (escapeHtml s).data ∧
      ampersandsEscaped (escapeHtml s).data = true ∧
      decodeEntities (escapeHtml s).data = s.data ∧
      escapeHtmlVal (.str s) = .ok (escapeHtml s)) ∧
    (∃ bubble : Elem,
      (appendUserBubble app text).chatMessages = app.chatMessages ++ [bubble] ∧
      bubble.innerHTML =
        "\n        <span class=\"bubble-label\">You</span>\n        " ++ escapeHtml text ++ "\n    " ∧
      tagOpens bubble.innerHTML = 2 ∧ tagCloses bubble.innerHTML = 2) ∧
    (∀ shown : String, toNullableDomString msg = .ok shown →
      ∃ bubble : Elem,
        (appendErrorBubble app msg).app.chatMessages = app.chatMessages ++ [bubble] ∧
        bubble.innerHTML =
          "\n        <span class=\"bubble-label\">Error</span>\n        " ++ escapeHtml shown ++ "\n    " ∧
        tagOpens bubble.innerHTML = 2 ∧ tagCloses bubble.innerHTML = 2) ∧
    (getProp data "code" = .ok code → getProp data "keynode" = .ok keynode →
      getProp data "Assest_list" = .ok assets → (renderBotResponse app data).thrown = none →
      ∃ bubble : Elem,
        (renderBotResponse app data).app.chatMessages = app.chatMessages ++ [bubble] ∧
        bubble.className = "chat-bubble bot" ∧
        tagOpens bubble.innerHTML = 2 + (if truthy code then 14 else 0) +
          (if truthy keynode then 4 else 0) + (if truthy assets then 4 else 0) ∧
        tagCloses bubble.innerHTML = 2 + (if truthy code then 14 else 0) +
          (if truthy keynode then 4 else 0) + (if truthy assets then 4 else 0)) ∧
    (appendUserBubble app "<script>alert(1)</script>").chatMessages =
      app.chatMessages ++ [⟨app.nextUid, "chat-bubble user",
        "\n        <span class=\"bubble-label\">You</span>\n        &lt;script&gt;alert(1)&lt;/script&gt;\n    "⟩] := by
  have hu1 : tagOpens "\n        <span class=\"bubble-label\">You</span>\n        " = 2 := by decide
  have hu2 : tagCloses "\n        <span class=\"bubble-label\">You</span>\n        " = 2 := by decide
  have he1 : tagOpens "\n        <span class=\"bubble-label\">Error</span>\n        " = 2 := by decide
  have he2 : tagCloses "\n        <span class=\"bubble-label\">Error</span>\n        " = 2 := by decide
  have hp1 : tagOpens "\n    " = 0 := by decide
  have hp2 : tagCloses "\n    " = 0 := by decide
  refine ⟨?_, ?_, ?_, ?_, ?_⟩
  · obtain ⟨h1, h2, h3, h4⟩ := escapeHtml_safe s
    exact ⟨h1, h2, h3, h4, rfl⟩
  · refine ⟨_, rfl, rfl, ?_, ?_⟩
    · simp only [tagOpens_append, tagOpens_escapeHtml, hu1, hp1]
    · simp only [tagCloses_append, tagCloses_escapeHtml, hu2, hp2]
  · intro shown hshown
    have hesc : escapeHtmlVal msg = .ok (escapeHtml shown) := by
      unfold escapeHtmlVal
      rw [hshown]
    unfold appendErrorBubble
    simp only [hesc]
    refine ⟨_, rfl, rfl, ?_, ?_⟩
    · simp only [tagOpens_append, tagOpens_escapeHtml, he1, hp1]
    · simp only [tagCloses_append, tagCloses_escapeHtml, he2, hp2]
  · exact renderBotResponse_tags app data code keynode assets
  · have hx : "\n        <span class=\"bubble-label\">You</span>\n        " ++
        escapeHtml "<script>alert(1)</script>" ++ "\n    " =
        "\n        <span class=\"bubble-label\">You</span>\n        &lt;script&gt;alert(1)&lt;/script&gt;\n    " := by
      decide
    unfold appendUserBubble
    simp only [hx]

/-- C6 at a response whose code and note both contain markup characters: the
bot bubble is appended with the twenty tags of its template and no other. -/
theorem escapeHtml_bubbles_witness :
    ∃ bubble : Elem,
      (renderBotResponse initialApp
        (.obj [("code", .str "<b>x</b>"), ("keynode", .str "a < b")])).app.chatMessages =
        initialApp.chatMessages ++ [bubble] ∧
      bubble.className = "chat-bubble bot" ∧
      tagOpens bubble.innerHTML = 2 + 14 + 4 + 0 ∧ tagCloses bubble.innerHTML = 2 + 14 + 4 + 0 :=
  (escapeHtml_bubbles "" "" initialApp .null
    (.obj [("code", .str "<b>x</b>"), ("keynode", .str "a < b")])
    (.str "<b>x</b>") (.str "a < b") .undefined).2.2.2.1 rfl rfl rfl rfl

/-! ## What the rendering functions leave alone -/

/-- Doing nothing is a render step. -/
theorem RenderStep.refl (a : App) : RenderStep a a :=
  ⟨rfl, rfl, rfl, Nat.le_refl _, fun _ h => Or.inl h⟩

/-- Render steps compose. -/
theorem RenderStep.trans {a b c : App} (h1 : RenderStep a b) (h2 : RenderStep b c) :
    RenderStep a c := by
  obtain ⟨p1, q1, i1, n1, m1⟩ := h1
  obtain ⟨p2, q2, i2, n2, m2⟩ := h2
  refine ⟨p2.trans p1, q2.trans q1, i2.trans i1, Nat.le_trans n1 n2, ?_⟩
  intro el hel
  rcases m2 el hel with h | h
  · exact m1 el h
  · exact Or.inr (Nat.le_trans n1 h)

/-- A step that touches neither the stream nor the flag. -/
theorem RenderStep.of_fields {a b : App} (h1 : b.isProcessing = a.isProcessing)
    (h2 : b.pending = a.pending) (h3 : b.issued = a.issued) (h4 : a.nextUid ≤ b.nextUid)
    (h5 : b.chatMessages = a.chatMessages) : RenderStep a b :=
  ⟨h1, h2, h3, h4, fun _ hel => Or.inl (h5 ▸ hel)⟩

/-- Removing the loader only takes an element away. -/
theorem removeThinking_step (app : App) (thinkingEl : Option Nat) :
    RenderStep app (removeThinking app thinkingEl) := by
  cases thinkingEl with
  | none => exact RenderStep.refl app
  | some t =>
    refine ⟨rfl, rfl, rfl, Nat.le_refl _, ?_⟩
    intro el hel
    exact Or.inl (List.mem_filter.mp hel).1

/-- `updatePreview` writes the preview pane only. -/
theorem updatePreview_step (app : App) (code : JsVal) :
    RenderStep app (updatePreview app code).app := by
  unfold updatePreview
  split <;> exact RenderStep.of_fields rfl rfl rfl (Nat.le_refl _) rfl

/-- `appendErrorBubble` creates one element and appends it or nothing. -/
theorem appendErrorBubble_step (app : App) (msg : JsVal) :
    RenderStep app (appendErrorBubble app msg).app := by
  unfold appendErrorBubble
  split
  · exact RenderStep.of_fields rfl rfl rfl (Nat.le_succ _) rfl
  · refine ⟨rfl, rfl, rfl, Nat.le_succ _, ?_⟩
    intro el hel
    rcases List.mem_append.mp hel with h | h
    · exact Or.inl h
    · rw [List.mem_singleton] at h
      subst h
      exact Or.inr (Nat.le_refl _)

/-- `showErrorPopup` writes the popup only. -/
theorem showErrorPopup_step (app : App) (msg : JsVal) :
    RenderStep app (showErrorPopup app msg).app := by
  unfold showErrorPopup
  split <;> exact RenderStep.of_fields rfl rfl rfl (Nat.le_refl _) rfl

/-- `showSuccessPopup` writes the popup only. -/
theorem showSuccessPopup_step (app : App) (url : JsVal) :
    RenderStep app (showSuccessPopup app url).app := by
  unfold showSuccessPopup
  split
  · exact RenderStep.of_fields rfl rfl rfl (Nat.le_refl _) rfl
  · split <;> exact RenderStep.of_fields rfl rfl rfl (Nat.le_refl _) rfl

/-- `handleError` writes the modal and popup, or appends to the stream. -/
theorem handleError_step (app : App) (msg : JsVal) (isDeploy : Bool) :
    RenderStep app (handleError app msg isDeploy).app := by
  unfold handleError
  split
  · exact RenderStep.trans (RenderStep.of_fields rfl rfl rfl (Nat.le_refl _) rfl)
      (showErrorPopup_step _ _)
  · exact appendErrorBubble_step _ _

/-- The code block of a bot bubble writes the preview pane at most. -/
theorem renderCode_step (app : App) (data : JsVal) (html : String) :
    RenderStep app (renderCode app data html).1.app := by
  unfold renderCode
  generalize getProp data "code" = g
  cases g with
  | error e => exact RenderStep.refl app
  | ok code =>
    dsimp only
    by_cases ht : truthy code = true
    · rw [if_pos ht]
      generalize escapeHtmlVal code = esc
      cases esc with
      | error e => exact RenderStep.refl app
      | ok escaped =>
        dsimp only
        by_cases hf : app.selectedFramework = "HTML/CSS"
        · rw [if_pos hf]
          exact updatePreview_step app code
        · rw [if_neg hf]
          exact RenderStep.refl app
    · rw [if_neg ht]
      exact RenderStep.refl app

/-- `renderBotResponse` creates one element and appends it or nothing. -/
theorem renderBotResponse_step (app : App) (data : JsVal) :
    RenderStep app (renderBotResponse app data).app := by
  have h0 : RenderStep app { app with nextUid := app.nextUid + 1 } :=
    RenderStep.of_fields rfl rfl rfl (Nat.le_succ _) rfl
  have h1 := RenderStep.trans h0
    (renderCode_step { app with nextUid := app.nextUid + 1 } data
      "<span class=\"bubble-label\">Simply Design AI</span>")
  unfold renderBotResponse
  simp only []
  split
  · exact h1
  · split
    · exact h1
    · split
      · exact h1
      · obtain ⟨p, q, i, n, m⟩ := h1
        refine ⟨p, q, i, n, ?_⟩
        intro el hel
        rcases List.mem_append.mp hel with h | h
        · exact m el h
        · rw [List.mem_singleton] at h
          subst h
          exact Or.inr (Nat.le_refl _)

/-! ## `callApi` never rejects -/

/-- The `try` block, from the state without the loader, is a render step. -/
theorem callApiTry_step (app : App) (isDeploy : Bool) (thinkingEl : Option Nat) (resData : JsVal) :
    RenderStep (removeThinking app thinkingEl)
      (callApiTry app isDeploy thinkingEl resData).app := by
  unfold callApiTry
  dsimp only
  generalize removeThinking app thinkingEl = base
  generalize getProp resData "status" = st
  cases st with
  | error e => exact RenderStep.refl base
  | ok status =>
    dsimp only
    by_cases hs : strictEqStr status "success" = true
    · rw [if_pos hs]
      cases isDeploy with
      | true =>
        simp only [if_true]
        have hc : RenderStep base (closeDeployModal base) :=
          RenderStep.of_fields rfl rfl rfl (Nat.le_refl _) rfl
        generalize getProp resData "data" = d
        cases d with
        | error e => exact hc
        | ok data =>
          dsimp only
          generalize getProp data "url" = u
          cases u with
          | error e => exact hc
          | ok url => exact RenderStep.trans hc (showSuccessPopup_step _ url)
      | false =>
        simp only [Bool.false_eq_true, if_false]
        generalize getProp resData "data" = d
        cases d with
        | error e => exact RenderStep.refl base
        | ok data => exact renderBotResponse_step base data
    · rw [if_neg hs]
      generalize getProp resData "msg" = m
      cases m with
      | error e => exact RenderStep.refl base
      | ok msg => exact handleError_step base msg isDeploy

/-- The `catch` block, from the state without the loader, is a render step. -/
theorem callApiCatch_step (app : App) (isDeploy : Bool) (thinkingEl : Option Nat)
    (error : JsError) :
    RenderStep (removeThinking app thinkingEl)
      (callApiCatch app isDeploy thinkingEl error).app := by
  unfold callApiCatch
  dsimp only
  split
  · exact handleError_step _ _ _
  · split
    · exact handleError_step _ _ _
    · exact handleError_step _ _ _

/-- With a string or `null` as message `handleError` does not throw. -/
theorem handleError_thrown (app : App) (msg : JsVal) (isDeploy : Bool)
    (hmsg : msg = .null ∨ ∃ s, msg = .str s) : (handleError app msg isDeploy).thrown = none := by
  unfold handleError
  rcases hmsg with h | ⟨s, h⟩
  · subst h
    cases isDeploy <;> rfl
  · subst h
    cases isDeploy
    · simp only [Bool.false_eq_true, if_false]
      split <;> rfl
    · simp only [if_true]
      split <;> rfl

/-- The `catch` block does not throw. -/
theorem callApiCatch_thrown (app : App) (isDeploy : Bool) (thinkingEl : Option Nat)
    (error : JsError) : (callApiCatch app isDeploy thinkingEl error).thrown = none := by
  unfold callApiCatch
  dsimp only
  split
  · exact handleError_thrown _ _ _ (Or.inr ⟨_, rfl⟩)
  · split
    · exact handleError_thrown _ _ _ (Or.inr ⟨_, rfl⟩)
    · exact handleError_thrown _ _ _ (Or.inl rfl)

/-- Whatever the settlement, `callApi` completes without an exception: every
exception of its `try` block is handled by its `catch` block, which does not
throw. -/
theorem callApiResume_thrown (app : App) (isDeploy : Bool) (thinkingEl : Option Nat)
    (s : Settlement) : (callApiResume app isDeploy thinkingEl s).thrown = none := by
  cases s with
  | rejected error => exact callApiCatch_thrown app isDeploy thinkingEl error
  | parsed resData =>
    unfold callApiResume
    dsimp only
    split
    · assumption
    · exact callApiCatch_thrown _ isDeploy thinkingEl _

/-- The rest of `callApi`, from the state without the loader, is a render step. -/
theorem callApiResume_step (app : App) (isDeploy : Bool) (thinkingEl : Option Nat)
    (s : Settlement) :
    RenderStep (removeThinking app thinkingEl)
      (callApiResume app isDeploy thinkingEl s).app := by
  cases s with
  | rejected error => exact callApiCatch_step app isDeploy thinkingEl error
  | parsed resData =>
    unfold callApiResume
    dsimp only
    split
    · exact callApiTry_step app isDeploy thinkingEl resData
    · exact RenderStep.trans (callApiTry_step app isDeploy thinkingEl resData)
        (RenderStep.trans (removeThinking_step _ thinkingEl) (callApiCatch_step _ _ _ _))

/-! ## Chat engine: the guard of `sendMessage` -/

/-- C3: whenever the input text is empty or white space only, or
`isProcessing` is true, `sendMessage` leaves the whole page state as it is; in
particular the bubbles, the input value, the flag, the send control and the
issued and pending requests are unchanged. -/
theorem sendMessage_noop (app : App)
    (h : app.chatInputValue.data.all isJsWhiteSpace = true ∨ app.isProcessing = true) :
    sendMessage app = app ∧ step app .sendMessage = app ∧
    (sendMessage app).chatMessages = app.chatMessages ∧
    (sendMessage app).chatInputValue = app.chatInputValue ∧
    (sendMessage app).isProcessing = app.isProcessing ∧
    (sendMessage app).btnSendDisabled = app.btnSendDisabled ∧
    (sendMessage app).issued = app.issued ∧
    (sendMessage app).pending = app.pending := by
  have hguard : (decide (jsTrim app.chatInputValue = "") || app.isProcessing) = true := by
    rcases h with h | h
    · simp [(jsTrim_eq_empty_iff _).mpr h]
    · simp [h]
  have hs : sendMessage app = app := by
    unfold sendMessage
    dsimp only
    rw [if_pos hguard]
  refine ⟨hs, hs, ?_, ?_, ?_, ?_, ?_, ?_⟩ <;> rw [hs]

/-- C3 on a page that is processing a request while the user has typed a new
message: the send attempt changes nothing. -/
theorem sendMessage_noop_witness :
    sendMessage { initialApp with chatInputValue := "again", isProcessing := true } =
      { initialApp with chatInputValue := "again", isProcessing := true } :=
  (sendMessage_noop { initialApp with chatInputValue := "again", isProcessing := true }
    (Or.inr rfl)).1

/-! ## Deployment outcomes -/

/-- C7, as stated, fails: for the deploy response `{status: "error", msg: ""}`
the message string is empty, and the popup shows the fallback text instead. -/
theorem deploy_failure_empty_msg :
    getProp (.obj [("status", .str "error"), ("msg", .str "")]) "msg" = .ok (.str "") ∧
    (callApiResume initialApp true none
      (.parsed (.obj [("status", .str "error"), ("msg", .str "")]))).app.popupMessageText =
      "Deployment failed. Please try again." ∧
    (callApiResume initialApp true none
      (.parsed (.obj [("status", .str "error"), ("msg", .str "")]))).app.popupMessageText ≠ "" :=
  ⟨rfl, rfl, by decide⟩

/-- C7 (amended): for every deploy-path response that parses with a top-level
status other than `"success"` and carries a non-empty message string `m` in
`msg`, `callApi` completes, closes the deploy modal and opens the error popup,
link hidden, whose message text is exactly `m`. -/
theorem deploy_failure_popup (app : App) (thinkingEl : Option Nat) (resData status : JsVal)
    (m : String) (hstatus : getProp resData "status" = .ok status)
    (hfail : strictEqStr status "success" = false)
    (hmsg : getProp resData "msg" = .ok (.str m)) (hm : m ≠ "") :
    (callApiResume app true thinkingEl (.parsed resData)).thrown = none ∧
    (callApiResume app true thinkingEl (.parsed resData)).app.deployModalActive = false ∧
    (callApiResume app true thinkingEl (.parsed resData)).app.popupOverlayActive = true ∧
    (callApiResume app true thinkingEl (.parsed resData)).app.popupBoxClass = "popup-box error" ∧
    (callApiResume app true thinkingEl (.parsed resData)).app.popupTitleText = "Deployment Failed" ∧
    (callApiResume app true thinkingEl (.parsed resData)).app.popupLinkDisplay = "none" ∧
    (callApiResume app true thinkingEl (.parsed resData)).app.popupMessageText = m := by
  have ht : truthy (.str m) = true := by simp [truthy, hm]
  have hr : callApiResume app true thinkingEl (.parsed resData) =
      showErrorPopup (closeDeployModal (removeThinking app thinkingEl)) (.str m) := by
    unfold callApiResume callApiTry handleError
    simp only [hstatus, hfail, hmsg, ht, if_true, Bool.false_eq_true, if_false]
    rfl
  rw [hr]
  exact ⟨rfl, rfl, rfl, rfl, rfl, rfl, rfl⟩

/-- The amended C7 at the response `{status: "error", msg: "quota exceeded"}`. -/
theorem deploy_failure_popup_witness :
    (callApiResume initialApp true none
      (.parsed (.obj [("status", .str "error"), ("msg", .str "quota exceeded")]))).app.popupMessageText =
      "quota exceeded" :=
  (deploy_failure_popup initialApp none
    (.obj [("status", .str "error"), ("msg", .str "quota exceeded")]) (.str "error")
    "quota exceeded" rfl rfl rfl (by decide)).2.2.2.2.2.2

/-- C8: for every deploy-path response that parses with status `"success"` and
a string `u` in `data.url`, `callApi` completes, closes the deploy modal and
opens the success popup, whose link is shown with `href` and text both exactly
`u`; the popup is not the error popup and the message stream gains no bubble. -/
theorem deploy_success_popup (app : App) (resData data : JsVal) (u : String)
    (hstatus : getProp resData "status" = .ok (.str "success"))
    (hdata : getProp resData "data" = .ok data) (hurl : getProp data "url" = .ok (.str u)) :
    (callApiResume app true none (.parsed resData)).thrown = none ∧
    (callApiResume app true none (.parsed resData)).app.deployModalActive = false ∧
    (callApiResume app true none (.parsed resData)).app.popupOverlayActive = true ∧
    (callApiResume app true none (.parsed resData)).app.popupBoxClass = "popup-box success" ∧
    (callApiResume app true none (.parsed resData)).app.popupTitleText = "Deployed Successfully!" ∧
    (callApiResume app true none (.parsed resData)).app.popupLinkDisplay = "inline-block" ∧
    (callApiResume app true none (.parsed resData)).app.popupLinkHref = u ∧
    (callApiResume app true none (.parsed resData)).app.popupLinkText = u ∧
    (callApiResume app true none (.parsed resData)).app.chatMessages = app.chatMessages := by
  have hr : callApiResume app true none (.parsed resData) =
      showSuccessPopup (closeDeployModal app) (.str u) := by
    unfold callApiResume callApiTry
    simp only [hstatus, hdata, hurl, strictEqStr, decide_True, if_true, removeThinking]
    rfl
  rw [hr]
  exact ⟨rfl, rfl, rfl, rfl, rfl, rfl, rfl, rfl, rfl⟩

/-- C8 at the response `{status: "success", data: {url: "https://x.example/site"}}`. -/
theorem deploy_success_popup_witness :
    (callApiResume initialApp true none
      (.parsed (.obj [("status", .str "success"),
        ("data", .obj [("url", .str "https://x.example/site")])]))).app.popupLinkHref =
      "https://x.example/site" :=
  (deploy_success_popup initialApp
    (.obj [("status", .str "success"), ("data", .obj [("url", .str "https://x.example/site")])])
    (.obj [("url", .str "https://x.example/site")]) "https://x.example/site" rfl rfl rfl).2.2.2.2.2.2.1

/-! ## Live preview -/

/-- `appendErrorBubble` leaves the preview pane as it is. -/
theorem appendErrorBubble_preview (app : App) (msg : JsVal) :
    preview (appendErrorBubble app msg).app = preview app := by
  unfold appendErrorBubble
  split <;> rfl

/-- On the chat path the `catch` block leaves the preview pane as it is. -/
theorem callApiCatch_chat_preview (app : App) (thinkingEl : Option Nat) (error : JsError) :
    preview (callApiCatch app false thinkingEl error).app = preview app := by
  have hbase : preview (removeThinking app thinkingEl) = preview app := by
    cases thinkingEl <;> rfl
  unfold callApiCatch handleError
  simp only [Bool.false_eq_true, if_false]
  split
  · rw [appendErrorBubble_preview, hbase]
  · split
    · rw [appendErrorBubble_preview, hbase]
    · rw [appendErrorBubble_preview, hbase]

/-- The preview pane after `renderBotResponse` is the one its code block left. -/
theorem renderBotResponse_preview (app : App) (data : JsVal) :
    preview (renderBotResponse app data).app =
      preview (renderCode { app with nextUid := app.nextUid + 1 } data
        "<span class=\"bubble-label\">Simply Design AI</span>").1.app := by
  unfold renderBotResponse
  dsimp only
  split
  · rfl
  · split
    · rfl
    · split <;> rfl

/-- The preview pane after the code block of a response whose `code` is a
non-empty string. -/
theorem renderCode_preview (app : App) (data : JsVal) (html c : String)
    (hcode : getProp data "code" = .ok (.str c)) (hc : c ≠ "") :
    preview (renderCode app data html).1.app =
      if app.selectedFramework = "HTML/CSS" then ("block", "none", some (c ++ fallbackScript))
      else preview app := by
  have ht : truthy (.str c) = true := by simp [truthy, hc]
  unfold renderCode
  rw [hcode]
  dsimp only
  rw [if_pos ht]
  have he : escapeHtmlVal (.str c) = .ok (escapeHtml c) := rfl
  rw [he]
  dsimp only
  by_cases hf : app.selectedFramework = "HTML/CSS"
  · rw [if_pos hf, if_pos hf]
    rfl
  · rw [if_neg hf, if_neg hf]

/-- C9: for every chat success response whose `data.code` is a non-empty
string `c`, `callApi` completes; if the selected target is `HTML/CSS` the
preview frame is then shown, the placeholder hidden, and the document loaded
into the frame is exactly `c` followed by the fallback script; for any other
target the frame's document and the visibility of frame and placeholder are
unchanged. -/
theorem preview_round_trip (app : App) (thinkingEl : Option Nat) (resData data : JsVal)
    (c : String) (hstatus : getProp resData "status" = .ok (.str "success"))
    (hdata : getProp resData "data" = .ok data)
    (hcode : getProp data "code" = .ok (.str c)) (hc : c ≠ "") :
    (callApiResume app false thinkingEl (.parsed resData)).thrown = none ∧
    (app.selectedFramework = "HTML/CSS" →
      (callApiResume app false thinkingEl (.parsed resData)).app.previewFrameDisplay = "block" ∧
      (callApiResume app false thinkingEl (.parsed resData)).app.previewPlaceholderDisplay = "none" ∧
      (callApiResume app false thinkingEl (.parsed resData)).app.previewFrameSrcdoc =
        some (c ++ fallbackScript)) ∧
    (app.selectedFramework ≠ "HTML/CSS" →
      (callApiResume app false thinkingEl (.parsed resData)).app.previewFrameDisplay =
        app.previewFrameDisplay ∧
      (callApiResume app false thinkingEl (.parsed resData)).app.previewPlaceholderDisplay =
        app.previewPlaceholderDisplay ∧
      (callApiResume app false thinkingEl (.parsed resData)).app.previewFrameSrcdoc =
        app.previewFrameSrcdoc) := by
  have hbase : preview (removeThinking app thinkingEl) = preview app := by
    cases thinkingEl <;> rfl
  have hfw : (removeThinking app thinkingEl).selectedFramework = app.selectedFramework := by
    cases thinkingEl <;> rfl
  have htry : callApiTry app false thinkingEl resData =
      renderBotResponse (removeThinking app thinkingEl) data := by
    unfold callApiTry
    simp only [hstatus, hdata, strictEqStr, decide_True, if_true, Bool.false_eq_true, if_false]
  have hp : preview (callApiResume app false thinkingEl (.parsed resData)).app =
      if app.selectedFramework = "HTML/CSS" then ("block", "none", some (c ++ fallbackScript))
      else preview app := by
    have hr : preview (callApiResume app false thinkingEl (.parsed resData)).app =
        preview (renderBotResponse (removeThinking app thinkingEl) data).app := by
      unfold callApiResume
      dsimp only
      rw [htry]
      split
      · rfl
      · exact callApiCatch_chat_preview _ _ _
    rw [hr, renderBotResponse_preview, renderCode_preview _ data _ c hcode hc]
    show (if (removeThinking app thinkingEl).selectedFramework = "HTML/CSS" then _ else
      preview (removeThinking app thinkingEl)) = _
    rw [hfw, hbase]
  refine ⟨callApiResume_thrown _ _ _ _, ?_, ?_⟩
  · intro hf
    rw [if_pos hf] at hp
    unfold preview at hp
    simp only [Prod.mk.injEq] at hp
    exact hp
  · intro hf
    rw [if_neg hf] at hp
    unfold preview at hp
    simp only [Prod.mk.injEq] at hp
    exact hp

/-- C9 at the response `{status: "success", data: {code: "<h1>Hi</h1>"}}` with
the target `HTML/CSS`. -/
theorem preview_round_trip_witness :
    (callApiResume initialApp false none
      (.parsed (.obj [("status", .str "success"),
        ("data", .obj [("code", .str "<h1>Hi</h1>")])]))).app.previewFrameSrcdoc =
      some ("<h1>Hi</h1>" ++ fallbackScript) :=
  ((preview_round_trip initialApp none
    (.obj [("status", .str "success"), ("data", .obj [("code", .str "<h1>Hi</h1>")])])
    (.obj [("code", .str "<h1>Hi</h1>")]) "<h1>Hi</h1>" rfl rfl rfl (by decide)).2.1 rfl).2.2

/-! ## Failure classification -/

mutual
/-- The only exception of ToString on a parsed value. -/
theorem toStr_error : ∀ (v : JsVal) (e : JsError), toStr v = .error e → e = toPrimitiveError
  | .undefined, e, h => by simp [toStr] at h
  | .null, e, h => by simp [toStr] at h
  | .bool b, e, h => by simp [toStr] at h
  | .num n, e, h => by simp [toStr] at h
  | .str s, e, h => by simp [toStr] at h
  | .arr xs, e, h => joinElems_error xs e (by rw [toStr] at h; exact h)
  | .obj props, e, h => by
    rw [toStr] at h
    split at h
    · injection h with h
      exact h.symm
    · exact Except.noConfusion h
/-- The only exception of a join of parsed values. -/
theorem joinElems_error : ∀ (xs : List JsVal) (e : JsError),
    joinElems xs = .error e → e = toPrimitiveError
  | [], e, h => by simp [joinElems] at h
  | x :: rest, e, h => by
    rw [joinElems] at h
    have hx := toStr_error x
    have hrest := joinElems_error rest
    cases hes : elemStr x (toStr x) with
    | error e1 =>
      rw [hes] at h
      injection h with h
      subst h
      unfold elemStr at hes
      split at hes
      · exact Except.noConfusion hes
      · exact Except.noConfusion hes
      · exact hx _ hes
    | ok a =>
      rw [hes] at h
      dsimp only at h
      cases hj : joinElems rest with
      | error e2 =>
        rw [hj] at h
        injection h with h
        subst h
        exact hrest _ hj
      | ok b =>
        rw [hj] at h
        exact Except.noConfusion h
end

/-- The ToPrimitive TypeError is neither an abort nor a fetch failure. -/
theorem unclassified_toPrimitiveError : Unclassified toPrimitiveError := by
  unfold Unclassified toPrimitiveError
  decide

/-- The TypeError of a property read is neither an abort nor a fetch failure. -/
theorem unclassified_nullishReadError (key : String) : Unclassified (nullishReadError key) := by
  unfold Unclassified nullishReadError
  refine ⟨by show "TypeError" ≠ "AbortError"; decide, ?_⟩
  have hne : "Cannot read properties of null or undefined (reading " ++ key ++ ")" ≠
      "Failed to fetch" := by
    intro h
    have hd := congrArg (fun s : String => s.data.head?) h
    simp only [String.data_append] at hd
    have h1 : ("Cannot read properties of null or undefined (reading ".data ++ key.data ++
        ")".data).head? = some 'C' := rfl
    have h2 : "Failed to fetch".data.head? = some 'F' := rfl
    rw [h1, h2] at hd
    exact absurd hd (by decide)
  simp [hne]

/-- A property read throws unclassified exceptions only. -/
theorem getProp_error (v : JsVal) (key : String) (e : JsError) (h : getProp v key = .error e) :
    Unclassified e := by
  unfold getProp at h
  split at h
  · injection h with h
    subst h
    exact unclassified_nullishReadError key
  · injection h with h
    subst h
    exact unclassified_nullishReadError key
  · exact Except.noConfusion h
  · exact Except.noConfusion h

/-- The conversion to a nullable DOM string throws unclassified exceptions only. -/
theorem toNullableDomString_error (v : JsVal) (e : JsError)
    (h : toNullableDomString v = .error e) : Unclassified e := by
  unfold toNullableDomString at h
  split at h
  · exact Except.noConfusion h
  · exact Except.noConfusion h
  · rw [toStr_error _ e h]
    exact unclassified_toPrimitiveError

/-- `escapeHtml` of a value throws unclassified exceptions only. -/
theorem escapeHtmlVal_error (v : JsVal) (e : JsError) (h : escapeHtmlVal v = .error e) :
    Unclassified e := by
  unfold escapeHtmlVal at h
  split at h
  · rename_i e1 he
    injection h with h
    subst h
    exact toNullableDomString_error v _ he
  · exact Except.noConfusion h

/-- An error bubble that cannot be rendered leaves the stream as it was. -/
theorem appendErrorBubble_thrown (app : App) (msg : JsVal) (e : JsError)
    (h : (appendErrorBubble app msg).thrown = some e) :
    Unclassified e ∧ (appendErrorBubble app msg).app.chatMessages = app.chatMessages := by
  unfold appendErrorBubble at h ⊢
  dsimp only at h ⊢
  cases hes : escapeHtmlVal msg with
  | error e1 =>
    rw [hes] at h
    injection h with h
    subst h
    exact ⟨escapeHtmlVal_error msg _ hes, rfl⟩
  | ok escaped =>
    rw [hes] at h
    exact Option.noConfusion h

/-- The code block of a bot bubble does not touch the message stream. -/
theorem renderCode_chatMessages (app : App) (data : JsVal) (html : String) :
    (renderCode app data html).1.app.chatMessages = app.chatMessages := by
  unfold renderCode
  generalize getProp data "code" = g
  cases g with
  | error e => rfl
  | ok code =>
    dsimp only
    by_cases ht : truthy code = true
    · rw [if_pos ht]
      generalize escapeHtmlVal code = esc
      cases esc with
      | error e => rfl
      | ok escaped =>
        dsimp only
        by_cases hf : app.selectedFramework = "HTML/CSS"
        · rw [if_pos hf]
          exact updatePreview_chatMessages app code
        · rw [if_neg hf]
    · rw [if_neg ht]

/-- The code block of a bot bubble throws unclassified exceptions only. -/
theorem renderCode_thrown (app : App) (data : JsVal) (html : String) (e : JsError)
    (h : (renderCode app data html).1.thrown = some e) : Unclassified e := by
  unfold renderCode at h
  cases hg : getProp data "code" with
  | error e1 =>
    rw [hg] at h
    injection h with h
    subst h
    exact getProp_error _ _ _ hg
  | ok code =>
    rw [hg] at h
    dsimp only at h
    by_cases ht : truthy code = true
    · rw [if_pos ht] at h
      cases hes : escapeHtmlVal code with
      | error e1 =>
        rw [hes] at h
        injection h with h
        subst h
        exact escapeHtmlVal_error _ _ hes
      | ok escaped =>
        rw [hes] at h
        dsimp only at h
        by_cases hf : app.selectedFramework = "HTML/CSS"
        · rw [if_pos hf] at h
          unfold updatePreview at h
          dsimp only at h
          cases hts : toStr code with
          | error e2 =>
            rw [hts] at h
            injection h with h
            subst h
            rw [toStr_error _ _ hts]
            exact unclassified_toPrimitiveError
          | ok s =>
            rw [hts] at h
            exact Option.noConfusion h
        · rw [if_neg hf] at h
          exact Option.noConfusion h
    · rw [if_neg ht] at h
      exact Option.noConfusion h

/-- The highlights note throws unclassified exceptions only. -/
theorem renderKeynode_error (data : JsVal) (html : String) (e : JsError)
    (h : renderKeynode data html = .error e) : Unclassified e := by
  unfold renderKeynode at h
  cases hg : getProp data "keynode" with
  | error e1 =>
    rw [hg] at h
    injection h with h
    subst h
    exact getProp_error _ _ _ hg
  | ok keynode =>
    rw [hg] at h
    dsimp only at h
    by_cases ht : truthy keynode = true
    · rw [if_pos ht] at h
      cases hes : escapeHtmlVal keynode with
      | error e1 =>
        rw [hes] at h
        injection h with h
        subst h
        exact escapeHtmlVal_error _ _ hes
      | ok escaped =>
        rw [hes] at h
        exact Except.noConfusion h
    · rw [if_neg ht] at h
      exact Except.noConfusion h

/-- The assets note throws unclassified exceptions only. -/
theorem renderAssets_error (data : JsVal) (html : String) (e : JsError)
    (h : renderAssets data html = .error e) : Unclassified e := by
  unfold renderAssets at h
  cases hg : getProp data "Assest_list" with
  | error e1 =>
    rw [hg] at h
    injection h with h
    subst h
    exact getProp_error _ _ _ hg
  | ok assets =>
    rw [hg] at h
    dsimp only at h
    by_cases ht : truthy assets = true
    · rw [if_pos ht] at h
      cases hes : escapeHtmlVal assets with
      | error e1 =>
        rw [hes] at h
        injection h with h
        subst h
        exact escapeHtmlVal_error _ _ hes
      | ok escaped =>
        rw [hes] at h
        exact Except.noConfusion h
    · rw [if_neg ht] at h
      exact Except.noConfusion h

/-- A bot bubble that cannot be rendered is not appended. -/
theorem renderBotResponse_thrown (app : App) (data : JsVal) (e : JsError)
    (h : (renderBotResponse app data).thrown = some e) :
    Unclassified e ∧ (renderBotResponse app data).app.chatMessages = app.chatMessages := by
  have hm := renderCode_chatMessages { app with nextUid := app.nextUid + 1 } data
    "<span class=\"bubble-label\">Simply Design AI</span>"
  have hm : (renderCode { app with nextUid := app.nextUid + 1 } data
      "<span class=\"bubble-label\">Simply Design AI</span>").1.app.chatMessages =
      app.chatMessages := hm
  unfold renderBotResponse at h ⊢
  dsimp only at h ⊢
  cases hr : (renderCode { app with nextUid := app.nextUid + 1 } data
      "<span class=\"bubble-label\">Simply Design AI</span>").1.thrown with
  | some e1 =>
    rw [hr] at h
    simp only [hr]
    injection h with h
    subst h
    exact ⟨renderCode_thrown _ _ _ _ hr, hm⟩
  | none =>
    rw [hr] at h
    simp only [hr]
    cases hk : renderKeynode data (renderCode { app with nextUid := app.nextUid + 1 } data
        "<span class=\"bubble-label\">Simply Design AI</span>").2 with
    | error e1 =>
      rw [hk] at h
      injection h with h
      subst h
      exact ⟨renderKeynode_error _ _ _ hk, hm⟩
    | ok html1 =>
      rw [hk] at h
      dsimp only at h ⊢
      cases ha : renderAssets data html1 with
      | error e1 =>
        rw [ha] at h
        injection h with h
        subst h
        exact ⟨renderAssets_error _ _ _ ha, hm⟩
      | ok html2 =>
        rw [ha] at h
        exact Option.noConfusion h

/-- On the chat path a `try` block that throws has appended nothing: the
stream is the one left by the removal of the loader. -/
theorem callApiTry_chat_thrown (app : App) (thinkingEl : Option Nat) (resData : JsVal)
    (e : JsError) (h : (callApiTry app false thinkingEl resData).thrown = some e) :
    Unclassified e ∧
    (callApiTry app false thinkingEl resData).app.chatMessages =
      (removeThinking app thinkingEl).chatMessages := by
  unfold callApiTry at h ⊢
  dsimp only at h ⊢
  generalize removeThinking app thinkingEl = base at h ⊢
  cases hst : getProp resData "status" with
  | error e1 =>
    rw [hst] at h
    injection h with h
    subst h
    exact ⟨getProp_error _ _ _ hst, rfl⟩
  | ok status =>
    rw [hst] at h
    dsimp only at h ⊢
    by_cases hs : strictEqStr status "success" = true
    · rw [if_pos hs] at h ⊢
      simp only [Bool.false_eq_true, if_false] at h ⊢
      cases hd : getProp resData "data" with
      | error e1 =>
        rw [hd] at h
        injection h with h
        subst h
        exact ⟨getProp_error _ _ _ hd, rfl⟩
      | ok data =>
        rw [hd] at h
        exact renderBotResponse_thrown base data e h
    · rw [if_neg hs] at h ⊢
      cases hm : getProp resData "msg" with
      | error e1 =>
        rw [hm] at h
        injection h with h
        subst h
        exact ⟨getProp_error _ _ _ hm, rfl⟩
      | ok msg =>
        rw [hm] at h
        dsimp only at h ⊢
        unfold handleError at h ⊢
        simp only [Bool.false_eq_true, if_false] at h ⊢
        exact appendErrorBubble_thrown base _ e h

/-- The error bubble appended for a message without markup characters. -/
theorem appendErrorBubble_plain (app : App) (text : String) (hplain : escapeHtml text = text) :
    appendErrorBubble app (.str text) =
      ⟨{ app with nextUid := app.nextUid + 1
                  chatMessages := app.chatMessages ++ [errorBubble app.nextUid text] }, none⟩ := by
  have he : escapeHtmlVal (.str text) = .ok text := by
    show Except.ok (escapeHtml text) = _
    rw [hplain]
  unfold appendErrorBubble
  simp only [he]
  rfl

/-- On the chat path `handleError` with a non-empty message without markup
characters appends the error bubble showing it. -/
theorem handleError_chat_plain (app : App) (text : String) (hne : text ≠ "")
    (hplain : escapeHtml text = text) :
    handleError app (.str text) false =
      ⟨{ app with nextUid := app.nextUid + 1
                  chatMessages := app.chatMessages ++ [errorBubble app.nextUid text] }, none⟩ := by
  have ht : truthy (.str text) = true := by simp [truthy, hne]
  unfold handleError
  simp only [Bool.false_eq_true, if_false, ht, if_true]
  exact appendErrorBubble_plain app text hplain

/-- With no message `handleError` shows the generic text on the chat path. -/
theorem handleError_chat_null (app : App) :
    handleError app .null false =
      ⟨{ app with nextUid := app.nextUid + 1
                  chatMessages := app.chatMessages ++ [errorBubble app.nextUid
                    "System Error: Unable to process request. Please try again."] }, none⟩ := by
  have ht : truthy .null = false := rfl
  unfold handleError
  simp only [Bool.false_eq_true, if_false, ht]
  exact appendErrorBubble_plain app _ (by decide)

/-- The `catch` block on an exception that is neither an abort nor a
`Failed to fetch` TypeError calls `handleError(null, isDeploy)`. -/
theorem callApiCatch_unclassified (app : App) (isDeploy : Bool) (thinkingEl : Option Nat)
    (error : JsError) (h : Unclassified error) :
    callApiCatch app isDeploy thinkingEl error =
      handleError (removeThinking app thinkingEl) .null isDeploy := by
  unfold callApiCatch
  dsimp only
  rw [if_neg h.1, h.2]
  rfl

/-- Removing the loader a second time changes nothing. -/
theorem removeThinking_idem (app app1 : App) (thinkingEl : Option Nat)
    (h : app1.chatMessages = (removeThinking app thinkingEl).chatMessages) :
    (removeThinking app1 thinkingEl).chatMessages = (removeThinking app thinkingEl).chatMessages := by
  cases thinkingEl with
  | none => exact h
  | some t =>
    show app1.chatMessages.filter _ = _
    rw [h]
    show (app.chatMessages.filter _).filter _ = app.chatMessages.filter _
    rw [List.filter_filter]
    simp

/-- C4: on the chat path `callApi` completes for every rejection.  A fetch
cancelled by the timeout (`AbortError`) appends the error bubble with exactly
the timeout text; a fetch failing with the TypeError `Failed to fetch` appends
the one with exactly the unreachable-server text; for every other exception,
whether an awaited promise rejects with it (e.g. a malformed JSON body) or the
handling of the parsed body throws it, `handleError` is called with `null` and
the bubble shows the generic text.  In each case the stream, once the loader is
removed, gains exactly one error bubble and no bot bubble. -/
theorem chat_failure_classification (app : App) (thinkingEl : Option Nat) (error : JsError)
    (resData : JsVal) :
    (callApiResume app false thinkingEl (.rejected error)).thrown = none ∧
    (error.name = "AbortError" →
      (callApiResume app false thinkingEl (.rejected error)).app.chatMessages =
        (removeThinking app thinkingEl).chatMessages ++ [errorBubble app.nextUid
          "Request timed out. The server is taking too long to respond — please try again."]) ∧
    (error.name ≠ "AbortError" → error.isTypeError = true → error.message = "Failed to fetch" →
      (callApiResume app false thinkingEl (.rejected error)).app.chatMessages =
        (removeThinking app thinkingEl).chatMessages ++ [errorBubble app.nextUid
          "Cannot reach the server. Check your internet connection or open the app via a local server (not file://)."]) ∧
    (error.name ≠ "AbortError" → ¬ (error.isTypeError = true ∧ error.message = "Failed to fetch") →
      callApiResume app false thinkingEl (.rejected error) =
        handleError (removeThinking app thinkingEl) .null false ∧
      (callApiResume app false thinkingEl (.rejected error)).app.chatMessages =
        (removeThinking app thinkingEl).chatMessages ++ [errorBubble app.nextUid
          "System Error: Unable to process request. Please try again."]) ∧
    ((callApiTry app false thinkingEl resData).thrown ≠ none →
      (callApiResume app false thinkingEl (.parsed resData)).thrown = none ∧
      ∃ uid : Nat,
        (callApiResume app false thinkingEl (.parsed resData)).app.chatMessages =
          (removeThinking app thinkingEl).chatMessages ++ [errorBubble uid
            "System Error: Unable to process request. Please try again."]) := by
  have huid : (removeThinking app thinkingEl).nextUid = app.nextUid := by
    cases thinkingEl <;> rfl
  refine ⟨callApiResume_thrown _ _ _ _, ?_, ?_, ?_, ?_⟩
  · intro hname
    show (callApiCatch app false thinkingEl error).app.chatMessages = _
    unfold callApiCatch
    dsimp only
    rw [if_pos hname, handleError_chat_plain _ _ (by decide) (by decide), huid]
  · intro hname htype hmessage
    show (callApiCatch app false thinkingEl error).app.chatMessages = _
    unfold callApiCatch
    dsimp only
    rw [if_neg hname, if_pos (by simp [htype, hmessage]),
      handleError_chat_plain _ _ (by decide) (by decide), huid]
  · intro hname hother
    have hu : Unclassified error := by
      refine ⟨hname, ?_⟩
      cases hty : error.isTypeError with
      | false => rfl
      | true =>
        have : error.message ≠ "Failed to fetch" := fun hmsg => hother ⟨hty, hmsg⟩
        simp [this]
    have hc : callApiResume app false thinkingEl (.rejected error) =
        handleError (removeThinking app thinkingEl) .null false :=
      callApiCatch_unclassified app false thinkingEl error hu
    refine ⟨hc, ?_⟩
    rw [hc, handleError_chat_null, huid]
  · intro hthrown
    refine ⟨callApiResume_thrown _ _ _ _, ?_⟩
    cases hr : (callApiTry app false thinkingEl resData).thrown with
    | none => exact absurd hr hthrown
    | some e =>
      obtain ⟨hu, hm⟩ := callApiTry_chat_thrown app thinkingEl resData e hr
      refine ⟨(removeThinking (callApiTry app false thinkingEl resData).app thinkingEl).nextUid, ?_⟩
      have hres : callApiResume app false thinkingEl (.parsed resData) =
          callApiCatch (callApiTry app false thinkingEl resData).app false thinkingEl e := by
        unfold callApiResume
        dsimp only
        rw [hr]
      rw [hres, callApiCatch_unclassified _ _ _ _ hu, handleError_chat_null]
      show (removeThinking (callApiTry app false thinkingEl resData).app thinkingEl).chatMessages ++ _ = _
      rw [removeThinking_idem app _ thinkingEl hm]

/-- C4 at a fetch cancelled by the timeout while the loader `0` is shown: the
loader is gone and the stream holds the timeout bubble only. -/
theorem chat_failure_classification_witness :
    (callApiResume { initialApp with nextUid := 1, chatMessages := [⟨0, "thinking-loader", ""⟩] }
      false (some 0) (.rejected ⟨"AbortError", false, "The operation was aborted."⟩)).app.chatMessages =
      [errorBubble 1
        "Request timed out. The server is taking too long to respond — please try again."] :=
  (chat_failure_classification
    { initialApp with nextUid := 1, chatMessages := [⟨0, "thinking-loader", ""⟩] } (some 0)
    ⟨"AbortError", false, "The operation was aborted."⟩ .null).2.1 rfl

/-! ## The event loop -/

/-- Erasing an entry lowers a count by one exactly when the entry is counted. -/
theorem countP_eraseIdx_add (q : Pending → Bool) (l : List Pending) (i : Nat) (p : Pending)
    (h : l.get? i = some p) :
    (l.eraseIdx i).countP q + (if q p then 1 else 0) = l.countP q := by
  induction l generalizing i with
  | nil => simp at h
  | cons a l ih =>
    cases i with
    | zero =>
      simp only [List.get?_cons_zero, Option.some.injEq] at h
      subst h
      simp only [List.eraseIdx_cons_zero, List.countP_cons]
    | succ i =>
      simp only [List.get?_cons_succ] at h
      simp only [List.eraseIdx_cons_succ, List.countP_cons]
      have := ih i h
      omega

/-- Replacing an entry by one counted alike keeps a count. -/
theorem countP_set_same (q : Pending → Bool) (l : List Pending) (i : Nat) (p p1 : Pending)
    (h : l.get? i = some p) (hq : q p1 = q p) : (l.set i p1).countP q = l.countP q := by
  induction l generalizing i with
  | nil => simp at h
  | cons a l ih =>
    cases i with
    | zero =>
      simp only [List.get?_cons_zero, Option.some.injEq] at h
      subst h
      simp only [List.set_cons_zero, List.countP_cons, hq]
    | succ i =>
      simp only [List.get?_cons_succ] at h
      simp only [List.set_cons_succ, List.countP_cons, ih i h]

/-- Since `callApi` never rejects, its caller always resumes. -/
theorem complete_eq (app : App) (i : Nat) (p : Pending) (s : Settlement) :
    complete app i p s =
      if p.isDeploy then
        publishDeployTail
          (callApiResume { app with pending := app.pending.eraseIdx i } p.isDeploy p.thinkingEl s).app
      else
        sendMessageTail
          (callApiResume { app with pending := app.pending.eraseIdx i } p.isDeploy p.thinkingEl s).app := by
  unfold complete
  dsimp only
  rw [callApiResume_thrown]

/-- The fields of the state after the rest of `callApi` has run for the
pending call at index `i`. -/
theorem resume_fields (app : App) (i : Nat) (isDeploy : Bool) (thinkingEl : Option Nat)
    (s : Settlement) :
    (callApiResume { app with pending := app.pending.eraseIdx i } isDeploy thinkingEl s).app.isProcessing =
      app.isProcessing ∧
    (callApiResume { app with pending := app.pending.eraseIdx i } isDeploy thinkingEl s).app.pending =
      app.pending.eraseIdx i ∧
    (callApiResume { app with pending := app.pending.eraseIdx i } isDeploy thinkingEl s).app.issued =
      app.issued ∧
    app.nextUid ≤
      (callApiResume { app with pending := app.pending.eraseIdx i } isDeploy thinkingEl s).app.nextUid ∧
    ∀ el ∈ (callApiResume { app with pending := app.pending.eraseIdx i } isDeploy thinkingEl s).app.chatMessages,
      (el ∈ app.chatMessages ∧ thinkingEl ≠ some el.uid) ∨ app.nextUid ≤ el.uid := by
  obtain ⟨h1, h2, h3, h4, h5⟩ :=
    callApiResume_step { app with pending := app.pending.eraseIdx i } isDeploy thinkingEl s
  cases thinkingEl with
  | none =>
    refine ⟨h1, h2, h3, h4, ?_⟩
    intro el hel
    rcases h5 el hel with h | h
    · exact Or.inl ⟨h, fun hc => Option.noConfusion hc⟩
    · exact Or.inr h
  | some t =>
    refine ⟨h1, h2, h3, h4, ?_⟩
    intro el hel
    rcases h5 el hel with h | h
    · have hf := List.mem_filter.mp h
      refine Or.inl ⟨hf.1, ?_⟩
      intro hc
      injection hc with hc
      have := hf.2
      simp [hc] at this
    · exact Or.inr h

/-- Completing a pending call keeps the state consistent. -/
theorem complete_consistent (app : App) (i : Nat) (p : Pending) (s : Settlement)
    (h : Consistent app) (hp : app.pending.get? i = some p) : Consistent (complete app i p s) := by
  obtain ⟨hcount, hloader, huid⟩ := h
  obtain ⟨f1, f2, f3, f4, _⟩ := resume_fields app i p.isDeploy p.thinkingEl s
  have hc := countP_eraseIdx_add (fun p => !p.isDeploy) app.pending i p hp
  unfold chatOutstanding at hcount
  rw [complete_eq]
  rcases Bool.eq_false_or_eq_true p.isDeploy with hd | hd
  · rw [hd] at f1 f2 f4
    simp only [hd] at hc
    rw [hd]
    simp only [if_true]
    refine ⟨?_, ?_, ?_⟩
    · show List.countP _ (callApiResume _ true p.thinkingEl s).app.pending =
        if (callApiResume _ true p.thinkingEl s).app.isProcessing = true then 1 else 0
      rw [f1, f2, ← hcount]
      simpa using hc
    · intro q hq
      have hq : q ∈ (callApiResume _ true p.thinkingEl s).app.pending := hq
      rw [f2] at hq
      exact hloader q (List.mem_of_mem_eraseIdx hq)
    · intro q hq t ht
      have hq : q ∈ (callApiResume _ true p.thinkingEl s).app.pending := hq
      rw [f2] at hq
      exact Nat.lt_of_lt_of_le (huid q (List.mem_of_mem_eraseIdx hq) t ht) f4
  · rw [hd] at f1 f2 f4
    simp only [hd] at hc
    rw [hd]
    simp only [Bool.false_eq_true, if_false]
    have hone : List.countP (fun p => !p.isDeploy) app.pending = 1 := by
      have hpos : 0 < List.countP (fun p => !p.isDeploy) app.pending := by
        simp only [Bool.not_false, if_true] at hc
        omega
      rw [hcount] at hpos ⊢
      split
      · rfl
      · rename_i hf
        rw [if_neg hf] at hpos
        exact absurd hpos (by decide)
    refine ⟨?_, ?_, ?_⟩
    · show List.countP _ (callApiResume _ false p.thinkingEl s).app.pending =
        if false = true then 1 else 0
      rw [f2]
      simp only [Bool.not_false, if_true] at hc
      simp only [Bool.false_eq_true, if_false]
      omega
    · intro q hq
      have hq : q ∈ (callApiResume _ false p.thinkingEl s).app.pending := hq
      rw [f2] at hq
      exact hloader q (List.mem_of_mem_eraseIdx hq)
    · intro q hq t ht
      have hq : q ∈ (callApiResume _ false p.thinkingEl s).app.pending := hq
      rw [f2] at hq
      exact Nat.lt_of_lt_of_le (huid q (List.mem_of_mem_eraseIdx hq) t ht) f4

/-- What an accepted `sendMessage` does: it appends the user bubble and the
loader, sets the flag, disables the send control, clears the input, and issues
one request whose call is pending with that loader. -/
theorem sendMessage_accepted (app : App) (htext : jsTrim app.chatInputValue ≠ "")
    (hidle : app.isProcessing = false) :
    (sendMessage app).isProcessing = true ∧
    (sendMessage app).btnSendDisabled = true ∧
    (sendMessage app).chatInputValue = "" ∧
    (sendMessage app).nextUid = app.nextUid + 2 ∧
    (sendMessage app).issued = app.issued ++
      [⟨jsTrim app.chatInputValue, app.selectedFramework, app.currentSessionId, "null"⟩] ∧
    (sendMessage app).pending = app.pending ++
      [⟨⟨jsTrim app.chatInputValue, app.selectedFramework, app.currentSessionId, "null"⟩,
        false, some (app.nextUid + 1), .awaitingFetch⟩] ∧
    ∃ bubble loader : Elem,
      (sendMessage app).chatMessages = app.chatMessages ++ [bubble, loader] ∧
      bubble.className = "chat-bubble user" ∧ loader.className = "thinking-loader" ∧
      loader.uid = app.nextUid + 1 := by
  have hguard : ¬ ((decide (jsTrim app.chatInputValue = "") || app.isProcessing) = true) := by
    simp [htext, hidle]
  unfold sendMessage
  dsimp only
  rw [if_neg hguard]
  exact ⟨rfl, rfl, rfl, rfl, rfl, rfl, _, _, List.append_assoc _ _ _, rfl, rfl, rfl⟩

/-- `sendMessage` keeps the state consistent. -/
theorem sendMessage_consistent (app : App) (h : Consistent app) : Consistent (sendMessage app) := by
  by_cases hguard : jsTrim app.chatInputValue = "" ∨ app.isProcessing = true
  · have hs : sendMessage app = app := by
      unfold sendMessage
      dsimp only
      rw [if_pos (by rcases hguard with h | h <;> simp [h])]
    rw [hs]
    exact h
  · push_neg at hguard
    obtain ⟨htext, hidle⟩ := hguard
    have hidle : app.isProcessing = false := by simpa using hidle
    obtain ⟨hcount, hloader, huid⟩ := h
    obtain ⟨s1, _, _, s4, _, s6, _⟩ := sendMessage_accepted app htext hidle
    unfold chatOutstanding at hcount
    rw [hidle] at hcount
    refine ⟨?_, ?_, ?_⟩
    · unfold chatOutstanding
      rw [s1, s6, List.countP_append, hcount]
      rfl
    · intro q hq hchat
      rw [s6] at hq
      rcases List.mem_append.mp hq with hq | hq
      · exact hloader q hq hchat
      · rw [List.mem_singleton] at hq
        subst hq
        exact ⟨_, rfl⟩
    · intro q hq t ht
      rw [s6] at hq
      rw [s4]
      rcases List.mem_append.mp hq with hq | hq
      · exact Nat.lt_of_lt_of_le (huid q hq t ht) (Nat.le_add_right _ _)
      · rw [List.mem_singleton] at hq
        subst hq
        injection ht with ht
        omega

/-- `publishDeploy` keeps the state consistent. -/
theorem publishDeploy_consistent (app : App) (h : Consistent app) :
    Consistent (publishDeploy app) := by
  obtain ⟨hcount, hloader, huid⟩ := h
  unfold publishDeploy
  dsimp only
  split
  · exact ⟨hcount, hloader, huid⟩
  · unfold chatOutstanding at hcount
    refine ⟨?_, ?_, ?_⟩
    · show List.countP _ (app.pending ++ [_]) = if app.isProcessing = true then 1 else 0
      rw [List.countP_append, hcount]
      rfl
    · intro q hq hchat
      have hq : q ∈ app.pending ++ [_] := hq
      rcases List.mem_append.mp hq with hq | hq
      · exact hloader q hq hchat
      · rw [List.mem_singleton] at hq
        subst hq
        exact Bool.noConfusion hchat
    · intro q hq t ht
      have hq : q ∈ app.pending ++ [_] := hq
      rcases List.mem_append.mp hq with hq | hq
      · exact huid q hq t ht
      · rw [List.mem_singleton] at hq
        subst hq
        exact Option.noConfusion ht

/-- Moving a call on to the parsing of the body keeps the state consistent. -/
theorem fetchResolved_consistent (app : App) (i : Nat) (p : Pending) (h : Consistent app)
    (hp : app.pending.get? i = some p) :
    Consistent { app with pending := app.pending.set i { p with phase := .awaitingJson } } := by
  obtain ⟨hcount, hloader, huid⟩ := h
  unfold chatOutstanding at hcount
  refine ⟨?_, ?_, ?_⟩
  · show List.countP _ (app.pending.set i _) = if app.isProcessing = true then 1 else 0
    rw [countP_set_same (fun p => !p.isDeploy) app.pending i p { p with phase := .awaitingJson } hp rfl,
      hcount]
  · intro q hq hchat
    have hq : q ∈ app.pending.set i _ := hq
    rcases List.mem_or_eq_of_mem_set hq with hq | hq
    · exact hloader q hq hchat
    · subst hq
      exact hloader p (List.get?_mem hp) hchat
  · intro q hq t ht
    have hq : q ∈ app.pending.set i _ := hq
    rcases List.mem_or_eq_of_mem_set hq with hq | hq
    · exact huid q hq t ht
    · subst hq
      exact huid p (List.get?_mem hp) t ht

/-- Every turn of the event loop keeps the state consistent. -/
theorem step_consistent (app : App) (e : Event) (h : Consistent app) : Consistent (step app e) := by
  cases e with
  | chatInput text => exact h
  | sendMessage => exact sendMessage_consistent app h
  | domainInput text => exact h
  | publishDeploy => exact publishDeploy_consistent app h
  | fetchRejected i error =>
    simp only [step]
    split
    · rename_i p hp
      split
      · exact complete_consistent app i p _ h hp
      · exact h
    · exact h
  | fetchResolved i =>
    simp only [step]
    split
    · rename_i p hp
      split
      · exact fetchResolved_consistent app i p h hp
      · exact h
    · exact h
  | jsonRejected i error =>
    simp only [step]
    split
    · rename_i p hp
      split
      · exact complete_consistent app i p _ h hp
      · exact h
    · exact h
  | jsonResolved i resData =>
    simp only [step]
    split
    · rename_i p hp
      split
      · exact complete_consistent app i p _ h hp
      · exact h
    · exact h

/-- Every reachable state is consistent. -/
theorem reachable_consistent (app : App) (h : Reachable app) : Consistent app := by
  induction h with
  | init app hinit =>
    obtain ⟨hidle, hnone⟩ := hinit
    refine ⟨?_, ?_, ?_⟩
    · unfold chatOutstanding
      rw [hidle, hnone]
      rfl
    · intro p hp
      rw [hnone] at hp
      exact absurd hp (List.not_mem_nil p)
    · intro p hp
      rw [hnone] at hp
      exact absurd hp (List.not_mem_nil p)
  | step app e _ ih => exact step_consistent app e ih

/-- C1: in every state reachable from an initial state (not processing, no
call pending) by any sequence of input edits, `sendMessage` and `publishDeploy`
invocations and settlements of awaited promises, with arbitrary texts and
outcomes, the number of outstanding chat-path requests is at most 1, and it is
1 exactly when `isProcessing` is true. -/
theorem single_in_flight (app : App) (h : Reachable app) :
    chatOutstanding app ≤ 1 ∧ (chatOutstanding app = 1 ↔ app.isProcessing = true) := by
  obtain ⟨hcount, _, _⟩ := reachable_consistent app h
  rw [hcount]
  cases app.isProcessing <;> simp

/-- C1 in the state reached when a message is sent and, while its request is
outstanding, a second one is typed and sent: one request is outstanding. -/
theorem single_in_flight_witness :
    chatOutstanding (step (step (step (step initialApp (.chatInput "hi")) .sendMessage)
      (.chatInput "again")) .sendMessage) ≤ 1 ∧
    (chatOutstanding (step (step (step (step initialApp (.chatInput "hi")) .sendMessage)
      (.chatInput "again")) .sendMessage) = 1 ↔
      (step (step (step (step initialApp (.chatInput "hi")) .sendMessage)
        (.chatInput "again")) .sendMessage).isProcessing = true) :=
  single_in_flight _
    (Reachable.step _ _ (Reachable.step _ _ (Reachable.step _ _ (Reachable.step _ _
      (Reachable.init initialApp ⟨rfl, rfl⟩)))))

/-! ## Completion of a chat request -/

/-- C2: in every reachable state, for every pending chat call, which an
accepted `sendMessage` started, and for every way its awaited part ends
(rejection of `fetch` or of `response.json()` with any exception, or a body
parsed to any value), `callApi` completes without propagating an error, and
when `sendMessage` finishes `isProcessing` is false, the send control is
enabled, no chat request is outstanding and the loader the call was given is no
longer in the message stream; the settlement events of the event loop run
exactly this completion, a resolved `fetch` moving the call on to the parsing of
the body; and a following submit of any text that is not blank is accepted: it
issues one request and is then the one outstanding. -/
theorem sendMessage_completes (app : App) (i : Nat) (p : Pending) (h : Reachable app)
    (hp : app.pending.get? i = some p) (hchat : p.isDeploy = false) :
    (∀ s : Settlement,
      (callApiResume { app with pending := app.pending.eraseIdx i } false p.thinkingEl s).thrown =
        none ∧
      (complete app i p s).isProcessing = false ∧
      (complete app i p s).btnSendDisabled = false ∧
      chatOutstanding (complete app i p s) = 0 ∧
      (∃ t, p.thinkingEl = some t ∧ ∀ el ∈ (complete app i p s).chatMessages, el.uid ≠ t) ∧
      ∀ text : String, jsTrim text ≠ "" →
        (step (step (complete app i p s) (.chatInput text)) .sendMessage).issued =
          (complete app i p s).issued ++
            [⟨jsTrim text, (complete app i p s).selectedFramework,
              (complete app i p s).currentSessionId, "null"⟩] ∧
        chatOutstanding (step (step (complete app i p s) (.chatInput text)) .sendMessage) = 1) ∧
    (p.phase = .awaitingFetch →
      (∀ error, step app (.fetchRejected i error) = complete app i p (.rejected error)) ∧
      (step app (.fetchResolved i)).pending.get? i = some { p with phase := .awaitingJson }) ∧
    (p.phase = .awaitingJson →
      (∀ error, step app (.jsonRejected i error) = complete app i p (.rejected error)) ∧
      (∀ resData, step app (.jsonResolved i resData) = complete app i p (.parsed resData))) := by
  have hcons := reachable_consistent app h
  refine ⟨?_, ?_, ?_⟩
  · intro s
    have hcomp := complete_consistent app i p s hcons hp
    obtain ⟨_, _, _, f4, f5⟩ := resume_fields app i false p.thinkingEl s
    have hc : complete app i p s = sendMessageTail
        (callApiResume { app with pending := app.pending.eraseIdx i } false p.thinkingEl s).app := by
      rw [complete_eq, hchat]
      simp only [Bool.false_eq_true, if_false]
    have hidle : (complete app i p s).isProcessing = false := by rw [hc]; rfl
    refine ⟨callApiResume_thrown _ _ _ _, hidle, by rw [hc]; rfl, ?_, ?_, ?_⟩
    · rw [hcomp.1, hidle]
      rfl
    · obtain ⟨t, ht⟩ := hcons.2.1 p (List.get?_mem hp) hchat
      have hlt : t < app.nextUid := hcons.2.2 p (List.get?_mem hp) t ht
      refine ⟨t, ht, ?_⟩
      intro el hel
      rw [hc] at hel
      have hel : el ∈ (callApiResume { app with pending := app.pending.eraseIdx i } false
          p.thinkingEl s).app.chatMessages := hel
      rcases f5 el hel with ⟨_, hne⟩ | hge
      · intro heq
        exact hne (by rw [ht, heq])
      · omega
    · intro text htext
      have hstep : step (step (complete app i p s) (.chatInput text)) .sendMessage =
          sendMessage { complete app i p s with chatInputValue := text } := rfl
      have hcons1 : Consistent { complete app i p s with chatInputValue := text } := hcomp
      obtain ⟨s1, _, _, _, s5, _⟩ :=
        sendMessage_accepted { complete app i p s with chatInputValue := text } htext hidle
      rw [hstep]
      refine ⟨s5, ?_⟩
      rw [(sendMessage_consistent _ hcons1).1, s1]
      rfl
  · intro hphase
    refine ⟨?_, ?_⟩
    · intro error
      simp only [step, hp, hphase, if_true]
    · simp only [step, hp, hphase, if_true]
      have hlt : i < app.pending.length := by
        rw [List.get?_eq_getElem?] at hp
        exact (List.getElem?_eq_some_iff.mp hp).1
      rw [List.get?_eq_getElem?, List.getElem?_set_self hlt]
  · intro hphase
    refine ⟨?_, ?_⟩
    · intro error
      simp only [step, hp, hphase, if_true]
    · intro resData
      simp only [step, hp, hphase, if_true]

/-- C2 on the page where `hi` was sent and the response has arrived: whatever
the body parses to, here `null`, the send completes and the page is ready for
the next message. -/
theorem sendMessage_completes_witness :
    (complete (step (step (step initialApp (.chatInput "hi")) .sendMessage) (.fetchResolved 0)) 0
      ⟨⟨"hi", "HTML/CSS", "", "null"⟩, false, some 1, .awaitingJson⟩
      (.parsed .null)).isProcessing = false :=
  ((sendMessage_completes
    (step (step (step initialApp (.chatInput "hi")) .sendMessage) (.fetchResolved 0)) 0
    ⟨⟨"hi", "HTML/CSS", "", "null"⟩, false, some 1, .awaitingJson⟩
    (Reachable.step _ _ (Reachable.step _ _ (Reachable.step _ _
      (Reachable.init initialApp ⟨rfl, rfl⟩))))
    rfl rfl).1 (.parsed .null)).2.1

end SimplyDesign
